import Mathlib

/-!
Shallow embedding of the zkSync `MintNFT` operation handler
(`core/lib/state/src/handler/mint_nft.rs`): the account data model, the
validation pass `create_op`, the application pass `apply_op` with its
mutation log, and the lazy NFT-storage-account bootstrap.

Machine integers of the source are embedded as `Nat` (`BigUint` balances are
arbitrary-precision non-negative integers; `u32` extraction points are
modelled with explicit `2 ^ 32` bounds).  Fallible code returns `Except` or a
dedicated outcome type; the two process-aborting points of the source
(`expect` on the token-id cast and the `assert_eq!` on the token-data slot)
are a distinct `panic` outcome, not a typed error.
-/

namespace MintNftHandler

/-- Modelled from the spec: configuration constant from `zksync_crypto::params`
(not under `src/`) bounding valid fee-token IDs. -/
def max_processable_token : Nat := 1023

/-- Modelled from the spec: configuration constant from `zksync_crypto::params`
(not under `src/`): the start of the reserved NFT token-id range, disjoint
from fungible token IDs. -/
def MIN_NFT_TOKEN_ID : Nat := 65536

/-- Modelled from the spec: the reserved NFT pseudo-token ID
(`zksync_crypto::params`, not under `src/`) whose balance slot holds the
per-creator serial counter and, on the storage account, the global token-id
counter. -/
def NFT_TOKEN_ID : Nat := 2147483646

/-- Modelled from the spec: fixed ID of the reserved NFT-storage account
(`zksync_crypto::params`, not under `src/`). -/
def NFT_STORAGE_ACCOUNT_ID : Nat := 16777214

/-- Modelled from the spec: fixed address of the reserved NFT-storage account
(`zksync_crypto::params`, not under `src/`). -/
def NFT_STORAGE_ACCOUNT_ADDRESS : Nat := 0x7777777777777777777777777777777777777777

/-- A ledger account: address, nonce, per-token balances and the signing-key
fingerprint (`pub_key_hash`); the default fingerprint `0` means "locked".
Addresses and fingerprints are `Nat` (the zero address / default hash is `0`);
absent balance entries are implicitly zero, so balances are a total map. -/
@[ext]
structure Account where
  address : Nat
  nonce : Nat
  pub_key_hash : Nat
  balances : Nat → Nat

/-- Source `Account::get_balance`: balance of a token, zero when absent. -/
def Account.get_balance (a : Account) (token : Nat) : Nat := a.balances token

/-- Source `Account::add_balance`. -/
def Account.add_balance (a : Account) (token amount : Nat) : Account :=
  { a with balances := Function.update a.balances token (a.balances token + amount) }

/-- Source `Account::sub_balance` (callers guard against underflow). -/
def Account.sub_balance (a : Account) (token amount : Nat) : Account :=
  { a with balances := Function.update a.balances token (a.balances token - amount) }

/-- An NFT record as built by `NFT::new`. -/
structure NFT where
  id : Nat
  serial_id : Nat
  creator_id : Nat
  creator_address : Nat
  address : Nat
  symbol : Option Nat
  content_hash : Nat
deriving DecidableEq

/-- One Mutation Log entry body (`AccountUpdate`): an account-creation
snapshot, a balance change with old/new balance and nonce, or the NFT-mint
marker carrying the full record and the creator's nonce at mint time. -/
inductive AccountUpdate where
  | Create (address : Nat) (nonce : Nat)
  | UpdateBalance (token old_balance new_balance old_nonce new_nonce : Nat)
  | MintNFT (token : NFT) (nonce : Nat)
deriving DecidableEq

/-- Modelled from the spec: `Account::create_account` (from `zksync_types`,
not under `src/`) builds a fresh account at the given address with nonce 0,
no balances and the default (locked) fingerprint, and returns the matching
`Create` Mutation Log entry. -/
def Account.create_account (id : Nat) (address : Nat) :
    Account × List (Nat × AccountUpdate) :=
  let account : Account :=
    { address := address, nonce := 0, pub_key_hash := 0, balances := fun _ => 0 }
  (account, [(id, AccountUpdate.Create address 0)])

/-- A signed mint request (`MintNFT` transaction).  `recovered_signer` is the
result of the opaque signature-verification capability: modelled from the
spec, `verify_signature` optionally returns the recovered signer fingerprint
(absence means "no signature to check", not failure). -/
structure MintNFT where
  creator_id : Nat
  recipient : Nat
  fee_token : Nat
  fee : Nat
  content_hash : Nat
  nonce : Nat
  recovered_signer : Option Nat
deriving DecidableEq

/-- Modelled from the spec: `MintNFT::verify_signature` invokes the opaque
signature-recovery capability; here it returns the request's recovered
signer fingerprint, if any. -/
def MintNFT.verify_signature (tx : MintNFT) : Option Nat := tx.recovered_signer

/-- The validated operation (`MintNFTOp`): the request plus the fixed creator
account ID and the resolved recipient account ID. -/
structure MintNFTOp where
  creator_account_id : Nat
  recipient_account_id : Nat
  tx : MintNFT
deriving DecidableEq

/-- The error taxonomy of the handler (`MintNFTOpError`). -/
inductive MintNFTOpError where
  | InvalidTokenId
  | RecipientAccountIncorrect
  | CreatorAccountNotFound
  | CreatorAccountIsLocked
  | InvalidSignature
  | RecipientAccountNotFound
  | NonceMismatch
  | InsufficientBalance
  | TokenIsAlreadyInAccount
deriving DecidableEq

/-- The collected fee returned by a successful application. -/
structure CollectedFee where
  token : Nat
  amount : Nat
deriving DecidableEq

/-- The account store (`ZkSyncState`): accounts by ID, the reverse
address-to-ID index, and the NFT registry keyed by token ID. -/
@[ext]
structure ZkSyncState where
  accounts : Nat → Option Account
  owner_of_address : Nat → Option Nat
  nfts : Nat → Option NFT

/-- Source `ZkSyncState::get_account`. -/
def ZkSyncState.get_account (s : ZkSyncState) (id : Nat) : Option Account :=
  s.accounts id

/-- Source `ZkSyncState::get_account_by_address`: reverse lookup through the index. -/
def ZkSyncState.get_account_by_address (s : ZkSyncState) (address : Nat) :
    Option (Nat × Account) :=
  match s.owner_of_address address with
  | some id => (s.accounts id).map (fun a => (id, a))
  | none => none

/-- Source `ZkSyncState::insert_account`: replace the stored account and update the
reverse index (last-writer-wins). -/
def ZkSyncState.insert_account (s : ZkSyncState) (id : Nat) (a : Account) :
    ZkSyncState :=
  { s with
    accounts := Function.update s.accounts id (some a)
    owner_of_address := Function.update s.owner_of_address a.address (some id) }

/-- Modelled from the spec: the opaque deterministic hash
`H(creator_id, serial_id, content_hash)` (`calculate_token_hash` from
`zksync_types::tx`, not under `src/`); a concrete injective pairing stands in
for the cryptographic hash. -/
def calculate_token_hash (creator_id serial_id content_hash : Nat) : Nat :=
  Nat.pair creator_id (Nat.pair serial_id content_hash)

/-- Modelled from the spec: deterministic token-address derivation from the
token hash (`calculate_token_address`, not under `src/`). -/
def calculate_token_address (h : Nat) : Nat := h + 1

/-- Modelled from the spec: the short token-data fingerprint derived from the
token hash (`calculate_token_data`, not under `src/`), sized to fit as a
balance (last 16 bytes of the hash). -/
def calculate_token_data (h : Nat) : Nat := h % 2 ^ 128

/-- The NFT-storage account as created by the bootstrap. -/
def boot_account : Account :=
  (Account.create_account NFT_STORAGE_ACCOUNT_ID NFT_STORAGE_ACCOUNT_ADDRESS).1.add_balance
    NFT_TOKEN_ID MIN_NFT_TOKEN_ID

/-- The bootstrap's Mutation Log entries: the creation snapshot followed by
the counter initialization, both with nonce 0 → 0. -/
def boot_log : List (Nat × AccountUpdate) :=
  [(NFT_STORAGE_ACCOUNT_ID, .Create NFT_STORAGE_ACCOUNT_ADDRESS 0),
    (NFT_STORAGE_ACCOUNT_ID, .UpdateBalance NFT_TOKEN_ID 0 MIN_NFT_TOKEN_ID 0 0)]

/-- Source `ZkSyncState::get_or_create_nft_account_token_id`: return the NFT-storage
account, or lazily create it at its fixed ID/address with the counter balance
initialized to `MIN_NFT_TOKEN_ID`, returning the bootstrap log entries. -/
def ZkSyncState.get_or_create_nft_account_token_id (s : ZkSyncState) :
    Account × List (Nat × AccountUpdate) × ZkSyncState :=
  match s.get_account NFT_STORAGE_ACCOUNT_ID with
  | some account => (account, [], s)
  | none =>
    let created := Account.create_account NFT_STORAGE_ACCOUNT_ID NFT_STORAGE_ACCOUNT_ADDRESS
    let account := created.1.add_balance NFT_TOKEN_ID MIN_NFT_TOKEN_ID
    let s1 := s.insert_account NFT_STORAGE_ACCOUNT_ID account
    (account,
      created.2 ++
        [(NFT_STORAGE_ACCOUNT_ID,
          AccountUpdate.UpdateBalance NFT_TOKEN_ID 0 MIN_NFT_TOKEN_ID 0 0)],
      s1)

/-- The final step of validation: resolve the recipient address to an account
ID and build the validated operation. -/
def resolve_recipient (s : ZkSyncState) (tx : MintNFT) :
    Except MintNFTOpError MintNFTOp :=
  match s.get_account_by_address tx.recipient with
  | none => .error .RecipientAccountNotFound
  | some (recipient, _) =>
    .ok { creator_account_id := tx.creator_id,
          recipient_account_id := recipient, tx := tx }

/-- Source `create_op`: pure validation of a mint request, in the source's order of
checks, producing the validated operation or the first failing check's
error.  It takes the state read-only and returns no state: validation is
pure with respect to account state. -/
def ZkSyncState.create_op (s : ZkSyncState) (tx : MintNFT) :
    Except MintNFTOpError MintNFTOp :=
  if tx.fee_token ≤ max_processable_token then
    if tx.recipient = 0 then .error .RecipientAccountIncorrect else
    match s.get_account tx.creator_id with
    | none => .error .CreatorAccountNotFound
    | some creator =>
      if creator.pub_key_hash = 0 then .error .CreatorAccountIsLocked else
      match tx.verify_signature with
      | some pub_key_hash =>
        if pub_key_hash = creator.pub_key_hash then resolve_recipient s tx
        else .error .InvalidSignature
      | none => resolve_recipient s tx
  else .error .InvalidTokenId

/-- Outcome of `apply_op` under `&mut self` semantics: success carries the
collected fee, the mutation log and the post-state; a typed error carries the
state as mutated so far (no rollback); `panic` is a process abort (the
`expect` on the token-id cast or the `assert_eq!` on the token-data slot). -/
inductive ApplyOutcome where
  | ok (fee : Option CollectedFee) (updates : List (Nat × AccountUpdate)) (s : ZkSyncState)
  | err (e : MintNFTOpError) (s : ZkSyncState)
  | panic

/-- The creator account after fee collection: fee debited from the fee-token
balance, nonce incremented by one. -/
def fee_paid (creator0 : Account) (op : MintNFTOp) : Account :=
  let creator1 := creator0.sub_balance op.tx.fee_token op.tx.fee
  { creator1 with nonce := creator1.nonce + 1 }

/-- The creator account after the per-creator serial counter bump. -/
def serial_bumped (creator0 : Account) (op : MintNFTOp) : Account :=
  (fee_paid creator0 op).add_balance NFT_TOKEN_ID 1

/-- The serial id assigned to the new NFT: the creator's `NFT_TOKEN_ID`
balance after fee collection, as `to_u32().unwrap_or_default()` — the value
when it fits in 32 bits, zero otherwise. -/
def serial_id_of (creator0 : Account) (op : MintNFTOp) : Nat :=
  let b := (fee_paid creator0 op).get_balance NFT_TOKEN_ID
  if b < 2 ^ 32 then b else 0

/-- The hash of the new token's provenance. -/
def token_hash_of (creator0 : Account) (op : MintNFTOp) : Nat :=
  calculate_token_hash op.tx.creator_id (serial_id_of creator0 op) op.tx.content_hash

/-- The token-data fingerprint committed on the storage account. -/
def token_data_of (creator0 : Account) (op : MintNFTOp) : Nat :=
  calculate_token_data (token_hash_of creator0 op)

/-- The NFT record built by `NFT::new` in `apply_op`. -/
def minted_nft (creator0 : Account) (op : MintNFTOp) (token_id : Nat) : NFT :=
  { id := token_id
    serial_id := serial_id_of creator0 op
    creator_id := op.tx.creator_id
    creator_address := (serial_bumped creator0 op).address
    address := calculate_token_address (token_hash_of creator0 op)
    symbol := none
    content_hash := op.tx.content_hash }

/-! Named intermediate snapshots of the application pass.  `apply_op` below is
defined in terms of them; each mirrors one mutation of the source. -/

/-- Log entry of step 1 (fee collection). -/
def u1_of (op : MintNFTOp) (creator0 : Account) : Nat × AccountUpdate :=
  (op.creator_account_id,
    .UpdateBalance op.tx.fee_token (creator0.get_balance op.tx.fee_token)
      ((fee_paid creator0 op).get_balance op.tx.fee_token)
      creator0.nonce (fee_paid creator0 op).nonce)

/-- Store after step 1 persists the creator. -/
def s1_of (s : ZkSyncState) (op : MintNFTOp) (creator0 : Account) : ZkSyncState :=
  s.insert_account op.creator_account_id (fee_paid creator0 op)

/-- Log entry of step 2 (serial counter bump). -/
def u2_of (op : MintNFTOp) (creator0 : Account) : Nat × AccountUpdate :=
  (op.creator_account_id,
    .UpdateBalance NFT_TOKEN_ID ((fee_paid creator0 op).get_balance NFT_TOKEN_ID)
      ((serial_bumped creator0 op).get_balance NFT_TOKEN_ID)
      (fee_paid creator0 op).nonce (serial_bumped creator0 op).nonce)

/-- Store after step 2 persists the creator. -/
def s2_of (s : ZkSyncState) (op : MintNFTOp) (creator0 : Account) : ZkSyncState :=
  (s1_of s op creator0).insert_account op.creator_account_id (serial_bumped creator0 op)

/-- Step 3's get-or-create of the NFT-storage account, run on the step-2
store. -/
def boot_of (s : ZkSyncState) (op : MintNFTOp) (creator0 : Account) :
    Account × List (Nat × AccountUpdate) × ZkSyncState :=
  (s2_of s op creator0).get_or_create_nft_account_token_id

/-- The NFT-storage account step 3 reads. -/
def nft0_of (s : ZkSyncState) (op : MintNFTOp) (creator0 : Account) : Account :=
  (boot_of s op creator0).1

/-- The bootstrap log entries of step 3 (empty if the account existed). -/
def boots_of (s : ZkSyncState) (op : MintNFTOp) (creator0 : Account) :
    List (Nat × AccountUpdate) :=
  (boot_of s op creator0).2.1

/-- Store after the bootstrap of step 3. -/
def s3_of (s : ZkSyncState) (op : MintNFTOp) (creator0 : Account) : ZkSyncState :=
  (boot_of s op creator0).2.2

/-- The token id step 3 assigns: the storage account's counter balance. -/
def ntid_of (s : ZkSyncState) (op : MintNFTOp) (creator0 : Account) : Nat :=
  (nft0_of s op creator0).get_balance NFT_TOKEN_ID

/-- The storage account after the counter increment. -/
def nft1_of (s : ZkSyncState) (op : MintNFTOp) (creator0 : Account) : Account :=
  (nft0_of s op creator0).add_balance NFT_TOKEN_ID 1

/-- Log entry of step 3 (counter increment), nonces fixed at zero. -/
def u3_of (s : ZkSyncState) (op : MintNFTOp) (creator0 : Account) : Nat × AccountUpdate :=
  (NFT_STORAGE_ACCOUNT_ID,
    .UpdateBalance NFT_TOKEN_ID (ntid_of s op creator0)
      ((nft1_of s op creator0).get_balance NFT_TOKEN_ID) 0 0)

/-- Store after step 3 persists the storage account. -/
def s4_of (s : ZkSyncState) (op : MintNFTOp) (creator0 : Account) : ZkSyncState :=
  (s3_of s op creator0).insert_account NFT_STORAGE_ACCOUNT_ID (nft1_of s op creator0)

/-- Log entry of step 5 (mint marker under the creator's ID, with the
creator's pre-increment nonce). -/
def u4_of (s : ZkSyncState) (op : MintNFTOp) (creator0 : Account) : Nat × AccountUpdate :=
  (op.creator_account_id,
    .MintNFT (minted_nft creator0 op (ntid_of s op creator0)) creator0.nonce)

/-- Store after step 5's registry insert. -/
def s5_of (s : ZkSyncState) (op : MintNFTOp) (creator0 : Account) : ZkSyncState :=
  { s4_of s op creator0 with
    nfts := Function.update (s4_of s op creator0).nfts (ntid_of s op creator0)
      (some (minted_nft creator0 op (ntid_of s op creator0))) }

/-- Store after step 5 re-persists the creator snapshot. -/
def s6_of (s : ZkSyncState) (op : MintNFTOp) (creator0 : Account) : ZkSyncState :=
  (s5_of s op creator0).insert_account op.creator_account_id (serial_bumped creator0 op)

/-- The storage account after step 6's token-data commit. -/
def nft2_of (s : ZkSyncState) (op : MintNFTOp) (creator0 : Account) : Account :=
  (nft1_of s op creator0).add_balance (ntid_of s op creator0) (token_data_of creator0 op)

/-- Log entry of step 6 (token-data commit). -/
def u5_of (s : ZkSyncState) (op : MintNFTOp) (creator0 : Account) : Nat × AccountUpdate :=
  (NFT_STORAGE_ACCOUNT_ID,
    .UpdateBalance (ntid_of s op creator0) 0 (token_data_of creator0 op)
      (nft2_of s op creator0).nonce (nft2_of s op creator0).nonce)

/-- Store after step 6 persists the storage account. -/
def s7_of (s : ZkSyncState) (op : MintNFTOp) (creator0 : Account) : ZkSyncState :=
  (s6_of s op creator0).insert_account NFT_STORAGE_ACCOUNT_ID (nft2_of s op creator0)

/-- Log entry of step 7 (recipient credit). -/
def u6_of (s : ZkSyncState) (op : MintNFTOp) (creator0 recipient0 : Account) :
    Nat × AccountUpdate :=
  (op.recipient_account_id,
    .UpdateBalance (ntid_of s op creator0) 0 1 recipient0.nonce
      (recipient0.add_balance (ntid_of s op creator0) 1).nonce)

/-- Store after step 7 persists the recipient: the success post-state. -/
def s8_of (s : ZkSyncState) (op : MintNFTOp) (creator0 recipient0 : Account) : ZkSyncState :=
  (s7_of s op creator0).insert_account op.recipient_account_id
    (recipient0.add_balance (ntid_of s op creator0) 1)

/-- The full mutation log of a successful application, in emission order. -/
def updates_of (s : ZkSyncState) (op : MintNFTOp) (creator0 recipient0 : Account) :
    List (Nat × AccountUpdate) :=
  [u1_of op creator0, u2_of op creator0] ++ boots_of s op creator0 ++
    [u3_of s op creator0, u4_of s op creator0, u5_of s op creator0,
      u6_of s op creator0 recipient0]

/-- Source `apply_op`: the eight-sub-step application of a validated mint operation,
mutating the store and producing the ordered mutation log.  Checks appear in
the source's order; each typed error carries the store as mutated so far,
and the two process aborts are `panic`. -/
def ZkSyncState.apply_op (s : ZkSyncState) (op : MintNFTOp) : ApplyOutcome :=
  match s.get_account op.creator_account_id with
  | none => .err .CreatorAccountNotFound s
  | some creator0 =>
    if creator0.nonce = op.tx.nonce then
      if op.tx.fee ≤ creator0.get_balance op.tx.fee_token then
        if ntid_of s op creator0 < 2 ^ 32 then
          if (nft1_of s op creator0).get_balance (ntid_of s op creator0) = 0 then
            match (s7_of s op creator0).get_account op.recipient_account_id with
            | none => .err .RecipientAccountNotFound (s7_of s op creator0)
            | some recipient0 =>
              if recipient0.get_balance (ntid_of s op creator0) = 0 then
                .ok (some { token := op.tx.fee_token, amount := op.tx.fee })
                  (updates_of s op creator0 recipient0) (s8_of s op creator0 recipient0)
              else .err .TokenIsAlreadyInAccount (s7_of s op creator0)
          else .panic
        else .panic
      else .err .InsufficientBalance s
    else .err .NonceMismatch s

/-- Source `apply_tx`: validate then apply (the `OpSuccess` wrapper of the source is
dropped; the fee, updates and state it carries are kept). -/
def ZkSyncState.apply_tx (s : ZkSyncState) (tx : MintNFT) : ApplyOutcome :=
  match s.create_op tx with
  | .error e => .err e s
  | .ok op => s.apply_op op

/-! ## Mutation Log replay

Modelled from the spec: entries "are appended in the exact order mutations
occur and must be replayed in that order by any consumer"; an `UpdateBalance`
entry sets the account's balance at the entry's token to the new value and
its nonce to the new nonce, a `Create` entry inserts the fresh account, and a
`MintNFT` marker inserts the record into the token registry. -/

/-- Replay one Mutation Log entry against an account store. -/
def replayUpdate (s : ZkSyncState) (u : Nat × AccountUpdate) : ZkSyncState :=
  match u.2 with
  | .Create address nonce =>
    s.insert_account u.1
      { address := address, nonce := nonce, pub_key_hash := 0, balances := fun _ => 0 }
  | .UpdateBalance token _old new_balance _old_nonce new_nonce =>
    match s.accounts u.1 with
    | some a =>
      s.insert_account u.1
        { a with nonce := new_nonce, balances := Function.update a.balances token new_balance }
    | none => s
  | .MintNFT token _nonce =>
    { s with nfts := Function.update s.nfts token.id (some token) }

/-- Replay a whole Mutation Log in order. -/
def replay (s : ZkSyncState) (us : List (Nat × AccountUpdate)) : ZkSyncState :=
  us.foldl replayUpdate s

/-! ## Outcome projections (used to state and evaluate the claims) -/

/-- The fee component of a successful outcome. -/
def ok_fee : ApplyOutcome → Option CollectedFee
  | .ok fee _ _ => fee
  | _ => none

/-- The mutation log of a successful outcome. -/
def ok_updates : ApplyOutcome → List (Nat × AccountUpdate)
  | .ok _ updates _ => updates
  | _ => []

/-- The post-state carried by a successful or failed outcome (the fallback is
returned on `panic`, where the process aborts). -/
def out_state (fallback : ZkSyncState) : ApplyOutcome → ZkSyncState
  | .ok _ _ s => s
  | .err _ s => s
  | .panic => fallback

/-- Whether the outcome is a success. -/
def is_ok : ApplyOutcome → Bool
  | .ok _ _ _ => true
  | _ => false

/-- The typed error of a failed outcome. -/
def out_error : ApplyOutcome → Option MintNFTOpError
  | .err e _ => some e
  | _ => none

/-- The nonce of the stored account, if any. -/
def acct_nonce (s : ZkSyncState) (id : Nat) : Option Nat :=
  (s.accounts id).map Account.nonce

/-- The balance of the stored account at a token, if the account exists. -/
def acct_balance (s : ZkSyncState) (id token : Nat) : Option Nat :=
  (s.accounts id).map (fun a => a.get_balance token)

/-- The first NFT-mint marker of a mutation log, if any: the record the
operation minted. -/
def minted_of (us : List (Nat × AccountUpdate)) : Option NFT :=
  us.findSome? (fun e =>
    match e.2 with
    | .MintNFT token _ => some token
    | _ => none)

/-- The global token-id counter read by step 3 of application: the storage
account's `NFT_TOKEN_ID` balance, or `MIN_NFT_TOKEN_ID` if the account does
not exist yet (the value the bootstrap initializes it to). -/
def token_counter (s : ZkSyncState) : Nat :=
  match s.accounts NFT_STORAGE_ACCOUNT_ID with
  | some a => a.get_balance NFT_TOKEN_ID
  | none => MIN_NFT_TOKEN_ID

/-- The per-creator serial counter: the account's `NFT_TOKEN_ID` balance,
zero if the account does not exist. -/
def serial_counter (s : ZkSyncState) (id : Nat) : Nat :=
  match s.accounts id with
  | some a => a.get_balance NFT_TOKEN_ID
  | none => 0

/-! ## Concrete scenario (spec §8): creator ID 7, recipient ID 9 -/

/-- The §8 scenario creator: address 70, fee-token-0 balance 100, nonce 3,
unlocked (fingerprint 1). -/
def creatorC : Account :=
  { address := 70, nonce := 3, pub_key_hash := 1,
    balances := Function.update (fun _ => 0) 0 100 }

/-- The §8 scenario recipient: address 90, empty, unlocked. -/
def recipientR : Account :=
  { address := 90, nonce := 0, pub_key_hash := 2, balances := fun _ => 0 }

/-- The §8 scenario store: accounts 7 and 9 only, fresh otherwise (no
NFT-storage account, empty registry). -/
def scenarioState : ZkSyncState :=
  { accounts := Function.update (Function.update (fun _ => none) 7 (some creatorC)) 9 (some recipientR)
    owner_of_address := Function.update (Function.update (fun _ => none) 70 (some 7)) 90 (some 9)
    nfts := fun _ => none }

/-- The §8 scenario request: fee token 0, fee 10, content hash `h` = 123,
nonce 3, no signature to check. -/
def scenarioTx : MintNFT :=
  { creator_id := 7, recipient := 90, fee_token := 0, fee := 10,
    content_hash := 123, nonce := 3, recovered_signer := none }

/-- The outcome of the §8 scenario. -/
def scenarioOut : ApplyOutcome := scenarioState.apply_tx scenarioTx

/-- The post-state of the §8 scenario. -/
def scenarioPost : ZkSyncState := out_state scenarioState scenarioOut

/-- The NFT-storage account of the post-scenario store (fallback
`boot_account`, never used: the account exists there). -/
def scenarioStorageAcct : Account :=
  (scenarioPost.accounts NFT_STORAGE_ACCOUNT_ID).getD boot_account

/-- The §8 validated operation for the scenario request (creator 7,
recipient resolved to 9). -/
def scenarioOp : MintNFTOp :=
  { creator_account_id := 7, recipient_account_id := 9, tx := scenarioTx }

/-- The scenario operation with a stale nonce (2 instead of 3). -/
def staleNonceOp : MintNFTOp :=
  { creator_account_id := 7, recipient_account_id := 9,
    tx := { scenarioTx with nonce := 2 } }

/-- The storage account, when present, carries the default (locked)
fingerprint: true of any store reachable from a fresh one, since the
bootstrap creates it locked and no mint operation touches fingerprints. -/
def storage_locked (s : ZkSyncState) : Prop :=
  ∀ a, s.accounts NFT_STORAGE_ACCOUNT_ID = some a → a.pub_key_hash = 0

/-- Run a list of mint requests in order, all required to succeed, collecting
the NFT record each one's Mutation Log carries. -/
def mintAll : ZkSyncState → List MintNFT → Option (List NFT × ZkSyncState)
  | s, [] => some ([], s)
  | s, tx :: rest =>
    match s.apply_tx tx with
    | .ok _ u s' =>
      match minted_of u with
      | some t => (mintAll s' rest).map (fun p => (t :: p.1, p.2))
      | none => none
    | _ => none

/-- A one-element mint sequence for evaluating the sequence claims. -/
def scenarioMintList : List MintNFT := [scenarioTx]

/-- Outcome of running the one-element sequence from the §8 pre-state. -/
def scenarioMintAll : Option (List NFT × ZkSyncState) :=
  mintAll scenarioState scenarioMintList

/-- The records minted by the one-element sequence. -/
def scenarioMintTs : List NFT := (scenarioMintAll.getD ([], scenarioState)).1

/-- The final store of the one-element sequence. -/
def scenarioMintPost : ZkSyncState := (scenarioMintAll.getD ([], scenarioState)).2

/-- A validated-shaped operation whose recipient account ID (12) is not in
the §8 store: only constructible by calling `apply_op` directly. -/
def missingRecipientOp : MintNFTOp :=
  { creator_account_id := 7, recipient_account_id := 12, tx := scenarioTx }

/-- A creator like the §8 one whose serial-counter balance is already
`2 ^ 32` (not representable in 32 bits). -/
def bigSerialCreator : Account :=
  { address := 70, nonce := 3, pub_key_hash := 1,
    balances := Function.update (Function.update (fun _ => 0) 0 100) NFT_TOKEN_ID (2 ^ 32) }

/-- The §8 store with the creator's serial counter already at `2 ^ 32`. -/
def bigSerialState : ZkSyncState :=
  { accounts :=
      Function.update (Function.update (fun _ => none) 7 (some bigSerialCreator)) 9
        (some recipientR)
    owner_of_address := Function.update (Function.update (fun _ => none) 70 (some 7)) 90 (some 9)
    nfts := fun _ => none }

/-- Outcome of the §8 request against the big-serial store. -/
def bigSerialOut : ApplyOutcome := bigSerialState.apply_tx scenarioTx

/-- An NFT-storage account whose global counter is already `2 ^ 32`. -/
def bigCounterStorage : Account :=
  { address := NFT_STORAGE_ACCOUNT_ADDRESS, nonce := 0, pub_key_hash := 0,
    balances := Function.update (fun _ => 0) NFT_TOKEN_ID (2 ^ 32) }

/-- The §8 store with the global token-id counter already at `2 ^ 32`. -/
def bigCounterState : ZkSyncState :=
  scenarioState.insert_account NFT_STORAGE_ACCOUNT_ID bigCounterStorage

/-! ## Spec-side definition of validation (for the refinement claim)

Written from the words of §4.2: six checks performed in the listed order,
each short-circuiting with its error on the first failure; on success the
operation fixes the creator ID and the resolved recipient ID. -/

/-- The §4.2 check list, in the spec's order: each entry is the condition
under which the check fails paired with the error it raises. -/
def check_list (s : ZkSyncState) (tx : MintNFT) : List (Bool × MintNFTOpError) :=
  [(! decide (tx.fee_token ≤ max_processable_token), .InvalidTokenId),
    (decide (tx.recipient = 0), .RecipientAccountIncorrect),
    ((s.get_account tx.creator_id).isNone, .CreatorAccountNotFound),
    ((match s.get_account tx.creator_id with
      | some creator => decide (creator.pub_key_hash = 0)
      | none => false), .CreatorAccountIsLocked),
    ((match tx.verify_signature, s.get_account tx.creator_id with
      | some recovered, some creator => decide (recovered ≠ creator.pub_key_hash)
      | _, _ => false), .InvalidSignature),
    ((s.get_account_by_address tx.recipient).isNone, .RecipientAccountNotFound)]

/-- Validation as §4.2 words it: return the error of the first failing
check, otherwise the validated operation with the resolved recipient. -/
def create_op_spec (s : ZkSyncState) (tx : MintNFT) :
    Except MintNFTOpError MintNFTOp :=
  match (check_list s tx).find? (fun c => c.1) with
  | some c => .error c.2
  | none =>
    match s.get_account_by_address tx.recipient with
    | some (recipient, _) =>
      .ok { creator_account_id := tx.creator_id,
            recipient_account_id := recipient, tx := tx }
    | none => .error .RecipientAccountNotFound

/-! ## Basic lemmas about the embedding -/

@[simp] theorem insert_account_accounts (s : ZkSyncState) (id : Nat) (a : Account) :
    (s.insert_account id a).accounts = Function.update s.accounts id (some a) := rfl

@[simp] theorem insert_account_owner (s : ZkSyncState) (id : Nat) (a : Account) :
    (s.insert_account id a).owner_of_address =
      Function.update s.owner_of_address a.address (some id) := rfl

@[simp] theorem insert_account_nfts (s : ZkSyncState) (id : Nat) (a : Account) :
    (s.insert_account id a).nfts = s.nfts := rfl

@[simp] theorem add_balance_nonce (a : Account) (t n : Nat) :
    (a.add_balance t n).nonce = a.nonce := rfl

@[simp] theorem add_balance_address (a : Account) (t n : Nat) :
    (a.add_balance t n).address = a.address := rfl

@[simp] theorem add_balance_pub_key_hash (a : Account) (t n : Nat) :
    (a.add_balance t n).pub_key_hash = a.pub_key_hash := rfl

theorem add_balance_get (a : Account) (t n u : Nat) :
    (a.add_balance t n).get_balance u =
      if u = t then a.get_balance t + n else a.get_balance u := by
  simp [Account.add_balance, Account.get_balance, Function.update_apply]

@[simp] theorem add_balance_get_same (a : Account) (t n : Nat) :
    (a.add_balance t n).get_balance t = a.get_balance t + n := by
  simp [add_balance_get]

theorem add_balance_get_other (a : Account) (t n u : Nat) (h : u ≠ t) :
    (a.add_balance t n).get_balance u = a.get_balance u := by
  simp [add_balance_get, h]

@[simp] theorem fee_paid_nonce (c : Account) (op : MintNFTOp) :
    (fee_paid c op).nonce = c.nonce + 1 := rfl

@[simp] theorem fee_paid_address (c : Account) (op : MintNFTOp) :
    (fee_paid c op).address = c.address := rfl

@[simp] theorem fee_paid_pub_key_hash (c : Account) (op : MintNFTOp) :
    (fee_paid c op).pub_key_hash = c.pub_key_hash := rfl

theorem fee_paid_get (c : Account) (op : MintNFTOp) (u : Nat) :
    (fee_paid c op).get_balance u =
      if u = op.tx.fee_token then c.get_balance u - op.tx.fee else c.get_balance u := by
  simp only [fee_paid, Account.sub_balance, Account.get_balance, Function.update_apply]
  split_ifs with h <;> simp [h]

@[simp] theorem serial_bumped_nonce (c : Account) (op : MintNFTOp) :
    (serial_bumped c op).nonce = c.nonce + 1 := rfl

@[simp] theorem serial_bumped_address (c : Account) (op : MintNFTOp) :
    (serial_bumped c op).address = c.address := rfl

@[simp] theorem serial_bumped_pub_key_hash (c : Account) (op : MintNFTOp) :
    (serial_bumped c op).pub_key_hash = c.pub_key_hash := rfl

theorem get_or_create_present {s : ZkSyncState} {a : Account}
    (h : s.accounts NFT_STORAGE_ACCOUNT_ID = some a) :
    s.get_or_create_nft_account_token_id = (a, [], s) := by
  unfold ZkSyncState.get_or_create_nft_account_token_id ZkSyncState.get_account
  rw [h]

theorem get_or_create_absent {s : ZkSyncState}
    (h : s.accounts NFT_STORAGE_ACCOUNT_ID = none) :
    s.get_or_create_nft_account_token_id =
      (boot_account, boot_log, s.insert_account NFT_STORAGE_ACCOUNT_ID boot_account) := by
  unfold ZkSyncState.get_or_create_nft_account_token_id ZkSyncState.get_account
  rw [h]
  rfl

/-- Success inversion for `apply_op`: a successful application pins down which
checks passed and gives the fee, log and post-state in closed form. -/
theorem apply_op_ok_inv {s : ZkSyncState} {op : MintNFTOp} {f : Option CollectedFee}
    {u : List (Nat × AccountUpdate)} {s' : ZkSyncState}
    (h : s.apply_op op = .ok f u s') :
    ∃ creator0 recipient0,
      s.accounts op.creator_account_id = some creator0 ∧
      creator0.nonce = op.tx.nonce ∧
      op.tx.fee ≤ creator0.get_balance op.tx.fee_token ∧
      ntid_of s op creator0 < 2 ^ 32 ∧
      (nft1_of s op creator0).get_balance (ntid_of s op creator0) = 0 ∧
      (s7_of s op creator0).accounts op.recipient_account_id = some recipient0 ∧
      recipient0.get_balance (ntid_of s op creator0) = 0 ∧
      f = some { token := op.tx.fee_token, amount := op.tx.fee } ∧
      u = updates_of s op creator0 recipient0 ∧
      s' = s8_of s op creator0 recipient0 := by
  unfold ZkSyncState.apply_op ZkSyncState.get_account at h
  split at h
  · exact ApplyOutcome.noConfusion h
  next creator0 hc =>
    split at h
    case isFalse => exact ApplyOutcome.noConfusion h
    next hnonce =>
      split at h
      case isFalse => exact ApplyOutcome.noConfusion h
      next hfee =>
        split at h
        case isFalse => exact ApplyOutcome.noConfusion h
        next hsmall =>
          split at h
          case isFalse => exact ApplyOutcome.noConfusion h
          next hslot =>
            split at h
            · exact ApplyOutcome.noConfusion h
            next recipient0 hr =>
              split at h
              case isFalse => exact ApplyOutcome.noConfusion h
              next hrslot =>
                refine ⟨creator0, recipient0, hc, hnonce, hfee, hsmall, hslot, hr, hrslot,
                  ?_, ?_, ?_⟩
                · exact (ApplyOutcome.ok.injEq _ _ _ _ _ _).mp h.symm |>.1
                · exact ((ApplyOutcome.ok.injEq _ _ _ _ _ _).mp h.symm).2.1
                · exact ((ApplyOutcome.ok.injEq _ _ _ _ _ _).mp h.symm).2.2

/-! ## Closed forms for the intermediate stores -/

theorem s2_accounts_apply (s : ZkSyncState) (op : MintNFTOp) (creator0 : Account) (x : Nat) :
    (s2_of s op creator0).accounts x =
      if x = op.creator_account_id then some (serial_bumped creator0 op)
      else s.accounts x := by
  simp only [s2_of, s1_of, insert_account_accounts, Function.update_apply]
  split_ifs <;> rfl

theorem s4_accounts (s : ZkSyncState) (op : MintNFTOp) (creator0 : Account) :
    (s4_of s op creator0).accounts =
      Function.update (s2_of s op creator0).accounts NFT_STORAGE_ACCOUNT_ID
        (some (nft1_of s op creator0)) := by
  unfold s4_of s3_of boot_of ZkSyncState.get_or_create_nft_account_token_id
    ZkSyncState.get_account
  rcases h : (s2_of s op creator0).accounts NFT_STORAGE_ACCOUNT_ID with _ | a <;>
    simp only [h, insert_account_accounts, Function.update_idem]

theorem nft0_of_present {s : ZkSyncState} {op : MintNFTOp} {creator0 a : Account}
    (h : (s2_of s op creator0).accounts NFT_STORAGE_ACCOUNT_ID = some a) :
    nft0_of s op creator0 = a ∧ boots_of s op creator0 = [] := by
  unfold nft0_of boots_of boot_of
  rw [get_or_create_present h]
  exact ⟨rfl, rfl⟩

theorem nft0_of_absent {s : ZkSyncState} {op : MintNFTOp} {creator0 : Account}
    (h : (s2_of s op creator0).accounts NFT_STORAGE_ACCOUNT_ID = none) :
    nft0_of s op creator0 = boot_account ∧ boots_of s op creator0 = boot_log := by
  unfold nft0_of boots_of boot_of
  rw [get_or_create_absent h]
  exact ⟨rfl, rfl⟩

theorem boot_account_counter : boot_account.get_balance NFT_TOKEN_ID = MIN_NFT_TOKEN_ID := by
  simp [boot_account, Account.create_account, Account.get_balance, Account.add_balance]

theorem ntid_of_eq_counter {s : ZkSyncState} {op : MintNFTOp} {creator0 : Account}
    (hcS : op.creator_account_id ≠ NFT_STORAGE_ACCOUNT_ID) :
    ntid_of s op creator0 = token_counter s := by
  have h2 : (s2_of s op creator0).accounts NFT_STORAGE_ACCOUNT_ID =
      s.accounts NFT_STORAGE_ACCOUNT_ID := by
    rw [s2_accounts_apply]
    exact if_neg (fun hx => hcS hx.symm)
  unfold ntid_of token_counter
  rcases h : s.accounts NFT_STORAGE_ACCOUNT_ID with _ | a
  · rw [(nft0_of_absent (h2.trans h)).1, boot_account_counter]
  · rw [(nft0_of_present (h2.trans h)).1]

theorem s7_accounts_apply (s : ZkSyncState) (op : MintNFTOp) (creator0 : Account) (x : Nat) :
    (s7_of s op creator0).accounts x =
      if x = NFT_STORAGE_ACCOUNT_ID then some (nft2_of s op creator0)
      else if x = op.creator_account_id then some (serial_bumped creator0 op)
      else s.accounts x := by
  unfold s7_of s6_of s5_of
  simp only [insert_account_accounts, Function.update_apply, s4_accounts, s2_accounts_apply]
  split_ifs <;> rfl

theorem s8_accounts_apply (s : ZkSyncState) (op : MintNFTOp) (creator0 recipient0 : Account)
    (x : Nat) :
    (s8_of s op creator0 recipient0).accounts x =
      if x = op.recipient_account_id
      then some (recipient0.add_balance (ntid_of s op creator0) 1)
      else (s7_of s op creator0).accounts x := by
  unfold s8_of
  simp only [insert_account_accounts, Function.update_apply]

theorem nft2_nonce (s : ZkSyncState) (op : MintNFTOp) (creator0 : Account) :
    (nft2_of s op creator0).nonce = (nft0_of s op creator0).nonce := by
  simp [nft2_of, nft1_of]

theorem nft0_nonce_creator_storage {s : ZkSyncState} {op : MintNFTOp} {creator0 : Account}
    (h : op.creator_account_id = NFT_STORAGE_ACCOUNT_ID) :
    (nft0_of s op creator0).nonce = creator0.nonce + 1 := by
  have h2 : (s2_of s op creator0).accounts NFT_STORAGE_ACCOUNT_ID =
      some (serial_bumped creator0 op) := by
    rw [s2_accounts_apply, if_pos h.symm]
  rw [(nft0_of_present h2).1]
  simp

/-- After a successful application the creator's stored account has nonce
exactly one above its pre-state nonce, whatever aliasing exists among the
creator, recipient and storage IDs. -/
theorem post_creator_nonce {s : ZkSyncState} {op : MintNFTOp} {creator0 recipient0 : Account}
    (hr : (s7_of s op creator0).accounts op.recipient_account_id = some recipient0) :
    ∃ a, (s8_of s op creator0 recipient0).accounts op.creator_account_id = some a ∧
      a.nonce = creator0.nonce + 1 := by
  rw [s7_accounts_apply] at hr
  by_cases hcr : op.creator_account_id = op.recipient_account_id
  · refine ⟨recipient0.add_balance (ntid_of s op creator0) 1, ?_, ?_⟩
    · rw [s8_accounts_apply, if_pos hcr]
    · rw [add_balance_nonce]
      by_cases hrS : op.recipient_account_id = NFT_STORAGE_ACCOUNT_ID
      · rw [if_pos hrS] at hr
        have := Option.some.inj hr
        rw [← this, nft2_nonce, nft0_nonce_creator_storage (hcr.trans hrS)]
      · rw [if_neg hrS, if_pos hcr.symm] at hr
        have := Option.some.inj hr
        rw [← this, serial_bumped_nonce]
  · rw [s8_accounts_apply, if_neg hcr, s7_accounts_apply]
    by_cases hcS : op.creator_account_id = NFT_STORAGE_ACCOUNT_ID
    · refine ⟨nft2_of s op creator0, if_pos hcS, ?_⟩
      rw [nft2_nonce, nft0_nonce_creator_storage hcS]
    · exact ⟨serial_bumped creator0 op, by rw [if_neg hcS, if_pos rfl], serial_bumped_nonce creator0 op⟩

theorem minted_of_updates (s : ZkSyncState) (op : MintNFTOp) (creator0 recipient0 : Account) :
    minted_of (updates_of s op creator0 recipient0) =
      some (minted_nft creator0 op (ntid_of s op creator0)) := by
  unfold minted_of updates_of
  rcases hb : (s2_of s op creator0).accounts NFT_STORAGE_ACCOUNT_ID with _ | a
  · rw [(nft0_of_absent hb).2]
    rfl
  · rw [(nft0_of_present hb).2]
    rfl

theorem ntid_ne_nft_token {s : ZkSyncState} {op : MintNFTOp} {creator0 : Account}
    (hslot : (nft1_of s op creator0).get_balance (ntid_of s op creator0) = 0) :
    ntid_of s op creator0 ≠ NFT_TOKEN_ID := by
  intro he
  rw [he, nft1_of, add_balance_get_same] at hslot
  exact Nat.succ_ne_zero _ hslot

theorem nft2_get_nft_token {s : ZkSyncState} {op : MintNFTOp} {creator0 : Account}
    (hne : ntid_of s op creator0 ≠ NFT_TOKEN_ID) :
    (nft2_of s op creator0).get_balance NFT_TOKEN_ID = ntid_of s op creator0 + 1 := by
  rw [nft2_of, add_balance_get_other _ _ _ _ (Ne.symm hne), nft1_of, add_balance_get_same]
  rfl

theorem nft0_pub_key_hash {s : ZkSyncState} {op : MintNFTOp} {creator0 : Account}
    (hinv : storage_locked s) (hcS : op.creator_account_id ≠ NFT_STORAGE_ACCOUNT_ID) :
    (nft0_of s op creator0).pub_key_hash = 0 := by
  have h2 : (s2_of s op creator0).accounts NFT_STORAGE_ACCOUNT_ID =
      s.accounts NFT_STORAGE_ACCOUNT_ID := by
    rw [s2_accounts_apply]
    exact if_neg (fun hx => hcS hx.symm)
  rcases h : s.accounts NFT_STORAGE_ACCOUNT_ID with _ | a
  · rw [(nft0_of_absent (h2.trans h)).1]
    rfl
  · rw [(nft0_of_present (h2.trans h)).1]
    exact hinv a h

theorem fee_paid_get_nft {op : MintNFTOp} (creator0 : Account)
    (hft : op.tx.fee_token ≠ NFT_TOKEN_ID) :
    (fee_paid creator0 op).get_balance NFT_TOKEN_ID =
      creator0.get_balance NFT_TOKEN_ID := by
  rw [fee_paid_get]
  exact if_neg (fun hx => hft hx.symm)

theorem serial_bumped_get_nft {op : MintNFTOp} (creator0 : Account)
    (hft : op.tx.fee_token ≠ NFT_TOKEN_ID) :
    (serial_bumped creator0 op).get_balance NFT_TOKEN_ID =
      creator0.get_balance NFT_TOKEN_ID + 1 := by
  rw [serial_bumped, add_balance_get_same, fee_paid_get_nft creator0 hft]

theorem max_token_lt_nft_token : max_processable_token < NFT_TOKEN_ID := by decide

theorem create_op_ok_inv {s : ZkSyncState} {tx : MintNFT} {op : MintNFTOp}
    (h : s.create_op tx = .ok op) :
    op.tx = tx ∧ op.creator_account_id = tx.creator_id ∧
    tx.fee_token ≤ max_processable_token ∧
    ∃ creator, s.accounts tx.creator_id = some creator ∧ ¬ creator.pub_key_hash = 0 := by
  unfold ZkSyncState.create_op resolve_recipient ZkSyncState.get_account at h
  split at h
  case isFalse => exact Except.noConfusion h
  next h1 =>
    split at h
    · exact Except.noConfusion h
    next h2 =>
      split at h
      · exact Except.noConfusion h
      next creator hcr =>
        split at h
        · exact Except.noConfusion h
        next h4 =>
          split at h
          next recovered h5 =>
            split at h
            next h7 =>
              split at h
              · exact Except.noConfusion h
              next rid ra h6 =>
                cases h
                exact ⟨rfl, rfl, h1, creator, hcr, h4⟩
            next h7 => exact Except.noConfusion h
          next h5 =>
            split at h
            · exact Except.noConfusion h
            next rid ra h6 =>
              cases h
              exact ⟨rfl, rfl, h1, creator, hcr, h4⟩

theorem apply_tx_ok_inv {s : ZkSyncState} {tx : MintNFT} {f : Option CollectedFee}
    {u : List (Nat × AccountUpdate)} {s' : ZkSyncState}
    (h : s.apply_tx tx = .ok f u s') :
    ∃ op, s.create_op tx = .ok op ∧ s.apply_op op = .ok f u s' := by
  unfold ZkSyncState.apply_tx at h
  split at h
  · exact ApplyOutcome.noConfusion h
  next op hop => exact ⟨op, hop, h⟩

theorem token_counter_eq {s : ZkSyncState} {a : Account}
    (h : s.accounts NFT_STORAGE_ACCOUNT_ID = some a) :
    token_counter s = a.get_balance NFT_TOKEN_ID := by
  unfold token_counter
  rw [h]

theorem serial_counter_eq {s : ZkSyncState} {d : Nat} {a : Account}
    (h : s.accounts d = some a) :
    serial_counter s d = a.get_balance NFT_TOKEN_ID := by
  unfold serial_counter
  rw [h]

theorem serial_counter_none {s : ZkSyncState} {d : Nat}
    (h : s.accounts d = none) : serial_counter s d = 0 := by
  unfold serial_counter
  rw [h]

/-- One successful `apply_tx` step, from a store whose storage account (if
present) is locked: the minted record carries the pre-state global counter as
its token id and the creator's pre-state serial counter as its serial id; the
global counter was representable and ends incremented by one; every
non-storage account's serial counter is unchanged except the creator's,
which ends incremented by one; and the storage account stays locked. -/
theorem apply_tx_ok_step {s : ZkSyncState} {tx : MintNFT} {f : Option CollectedFee}
    {u : List (Nat × AccountUpdate)} {s' : ZkSyncState}
    (hinv : storage_locked s) (h : s.apply_tx tx = .ok f u s') :
    tx.creator_id ≠ NFT_STORAGE_ACCOUNT_ID ∧
    token_counter s < 2 ^ 32 ∧
    (∃ t, minted_of u = some t ∧ t.id = token_counter s ∧ t.creator_id = tx.creator_id ∧
      t.serial_id = (if serial_counter s tx.creator_id < 2 ^ 32
        then serial_counter s tx.creator_id else 0)) ∧
    token_counter s' = token_counter s + 1 ∧
    (∀ d, d ≠ NFT_STORAGE_ACCOUNT_ID →
      serial_counter s' d = (if d = tx.creator_id
        then serial_counter s d + 1 else serial_counter s d)) ∧
    storage_locked s' := by
  obtain ⟨op, hco, hao⟩ := apply_tx_ok_inv h
  obtain ⟨htx, hcid, hmax, creator, hcacc, hcpkh⟩ := create_op_ok_inv hco
  obtain ⟨creator0, recipient0, hc, hnonce, hfee, hsmall, hslot, hr, hrslot, hf, hu, hs⟩ :=
    apply_op_ok_inv hao
  have hc' : s.accounts tx.creator_id = some creator0 := by
    rw [← hcid]
    exact hc
  obtain rfl : creator = creator0 := Option.some.inj (hcacc.symm.trans hc')
  have hcS : op.creator_account_id ≠ NFT_STORAGE_ACCOUNT_ID := by
    intro he
    rw [he] at hc
    exact hcpkh (hinv creator hc)
  have hft : op.tx.fee_token ≠ NFT_TOKEN_ID := by
    rw [htx]
    exact Nat.ne_of_lt (lt_of_le_of_lt hmax max_token_lt_nft_token)
  have hntid : ntid_of s op creator = token_counter s := ntid_of_eq_counter hcS
  have hne : ntid_of s op creator ≠ NFT_TOKEN_ID := ntid_ne_nft_token hslot
  have hnftpkh : (nft0_of s op creator).pub_key_hash = 0 := nft0_pub_key_hash hinv hcS
  subst hs
  refine ⟨by rw [← hcid]; exact hcS, hntid ▸ hsmall, ?_, ?_, ?_, ?_⟩
  · refine ⟨minted_nft creator op (ntid_of s op creator), ?_, hntid, ?_, ?_⟩
    · rw [hu]
      exact minted_of_updates s op creator recipient0
    · show op.tx.creator_id = tx.creator_id
      rw [htx]
    · show serial_id_of creator op = _
      simp only [serial_id_of]
      rw [fee_paid_get_nft creator hft, serial_counter_eq hc']
  · by_cases hrS : NFT_STORAGE_ACCOUNT_ID = op.recipient_account_id
    · have hr2 : recipient0 = nft2_of s op creator := by
        rw [s7_accounts_apply, ← hrS, if_pos rfl] at hr
        exact (Option.some.inj hr).symm
      have h8 : (s8_of s op creator recipient0).accounts NFT_STORAGE_ACCOUNT_ID =
          some (recipient0.add_balance (ntid_of s op creator) 1) := by
        rw [s8_accounts_apply, if_pos hrS]
      rw [token_counter_eq h8, hr2,
        add_balance_get_other _ _ _ _ (Ne.symm hne), nft2_get_nft_token hne, hntid]
    · have h8 : (s8_of s op creator recipient0).accounts NFT_STORAGE_ACCOUNT_ID =
          some (nft2_of s op creator) := by
        rw [s8_accounts_apply, if_neg hrS, s7_accounts_apply, if_pos rfl]
      rw [token_counter_eq h8, nft2_get_nft_token hne, hntid]
  · intro d hdS
    have hcid2 : op.creator_account_id = op.tx.creator_id := by
      rw [htx]
      exact hcid
    rw [← htx]
    by_cases hdr : d = op.recipient_account_id
    · have h8 : (s8_of s op creator recipient0).accounts d =
          some (recipient0.add_balance (ntid_of s op creator) 1) := by
        rw [s8_accounts_apply, if_pos hdr]
      rw [serial_counter_eq h8, add_balance_get_other _ _ _ _ (Ne.symm hne)]
      rw [s7_accounts_apply, ← hdr] at hr
      rw [if_neg hdS] at hr
      by_cases hdc : d = op.creator_account_id
      · rw [if_pos hdc] at hr
        obtain rfl := Option.some.inj hr.symm
        rw [if_pos (hdc.trans hcid2)]
        rw [serial_bumped_get_nft creator hft,
          serial_counter_eq (show s.accounts d = some creator by rw [hdc]; exact hc)]
      · rw [if_neg hdc] at hr
        rw [if_neg (fun hx => hdc (hx.trans hcid2.symm))]
        rcases hd : s.accounts d with _ | da
        · rw [hd] at hr
          exact absurd hr (by simp)
        · rw [hd] at hr
          obtain rfl := Option.some.inj hr.symm
          rw [serial_counter_eq hd]
    · have h8 : (s8_of s op creator recipient0).accounts d =
          (s7_of s op creator).accounts d := by
        rw [s8_accounts_apply, if_neg hdr]
      rw [s7_accounts_apply, if_neg hdS] at h8
      by_cases hdc : d = op.creator_account_id
      · rw [if_pos hdc] at h8
        rw [serial_counter_eq h8, if_pos (hdc.trans hcid2)]
        rw [serial_bumped_get_nft creator hft,
          serial_counter_eq (show s.accounts d = some creator by rw [hdc]; exact hc)]
      · rw [if_neg hdc] at h8
        rw [if_neg (fun hx => hdc (hx.trans hcid2.symm))]
        rcases hd : s.accounts d with _ | da
        · rw [hd] at h8
          unfold serial_counter
          rw [h8, hd]
        · rw [hd] at h8
          rw [serial_counter_eq h8, serial_counter_eq hd]
  · intro a ha
    by_cases hrS : NFT_STORAGE_ACCOUNT_ID = op.recipient_account_id
    · have hr2 : recipient0 = nft2_of s op creator := by
        rw [s7_accounts_apply, ← hrS, if_pos rfl] at hr
        exact (Option.some.inj hr).symm
      rw [s8_accounts_apply, if_pos hrS] at ha
      obtain rfl := Option.some.inj ha.symm
      rw [add_balance_pub_key_hash, hr2]
      show (nft2_of s op creator).pub_key_hash = 0
      rw [nft2_of, add_balance_pub_key_hash, nft1_of, add_balance_pub_key_hash]
      exact hnftpkh
    · rw [s8_accounts_apply, if_neg hrS, s7_accounts_apply, if_pos rfl] at ha
      obtain rfl := Option.some.inj ha.symm
      show (nft2_of s op creator).pub_key_hash = 0
      rw [nft2_of, add_balance_pub_key_hash, nft1_of, add_balance_pub_key_hash]
      exact hnftpkh

/-- Along a successful mint sequence, the minted token ids are the
consecutive naturals starting at the pre-state global counter, which ends
advanced by the number of mints, and the storage account stays locked. -/
theorem mintAll_token_ids {txs : List MintNFT} {s : ZkSyncState} {ts : List NFT}
    {s' : ZkSyncState} (hinv : storage_locked s) (h : mintAll s txs = some (ts, s')) :
    ts.map NFT.id = List.range' (token_counter s) txs.length ∧
    token_counter s' = token_counter s + txs.length ∧ storage_locked s' := by
  induction txs generalizing s ts with
  | nil =>
    unfold mintAll at h
    have hpair := Option.some.inj h
    obtain rfl : ([] : List NFT) = ts := congrArg Prod.fst hpair
    obtain rfl : s = s' := congrArg Prod.snd hpair
    exact ⟨rfl, rfl, hinv⟩
  | cons tx rest ih =>
    unfold mintAll at h
    split at h
    next f u s1 happ =>
      split at h
      next t hm =>
        rcases hrest : mintAll s1 rest with _ | p
        · rw [hrest] at h
          exact Option.noConfusion h
        · rw [hrest] at h
          obtain ⟨ts1, s2⟩ := p
          have hpair := Option.some.inj h
          obtain rfl : t :: ts1 = ts := congrArg Prod.fst hpair
          obtain rfl : s2 = s' := congrArg Prod.snd hpair
          obtain ⟨hcS, hsmall, ⟨t', hm', hid, hcr, hser⟩, hcnt, hsers, hinv1⟩ :=
            apply_tx_ok_step hinv happ
          obtain rfl : t' = t := Option.some.inj (hm'.symm.trans hm)
          obtain ⟨ihmap, ihcnt, ihinv⟩ := ih hinv1 hrest
          refine ⟨?_, ?_, ihinv⟩
          · simp only [List.map_cons, List.length_cons, List.range'_succ]
            rw [hid, ihmap, hcnt]
          · rw [ihcnt, hcnt, List.length_cons]
            omega
      next hm => exact Option.noConfusion h
    next hko => exact Option.noConfusion h

/-- No record minted along a successful sequence names the storage account as
its creator. -/
theorem mintAll_creators {txs : List MintNFT} {s : ZkSyncState} {ts : List NFT}
    {s' : ZkSyncState} (hinv : storage_locked s) (h : mintAll s txs = some (ts, s')) :
    ∀ t ∈ ts, t.creator_id ≠ NFT_STORAGE_ACCOUNT_ID := by
  induction txs generalizing s ts with
  | nil =>
    unfold mintAll at h
    obtain rfl : ([] : List NFT) = ts := congrArg Prod.fst (Option.some.inj h)
    intro t ht
    exact absurd ht (List.not_mem_nil t)
  | cons tx rest ih =>
    unfold mintAll at h
    split at h
    next f u s1 happ =>
      split at h
      next t hm =>
        rcases hrest : mintAll s1 rest with _ | p
        · rw [hrest] at h
          exact Option.noConfusion h
        · rw [hrest] at h
          obtain ⟨ts1, s2⟩ := p
          have hpair := Option.some.inj h
          obtain rfl : t :: ts1 = ts := congrArg Prod.fst hpair
          obtain rfl : s2 = s' := congrArg Prod.snd hpair
          obtain ⟨hcS, _, ⟨t', hm', _, hcr, _⟩, _, _, hinv1⟩ := apply_tx_ok_step hinv happ
          obtain rfl : t' = t := Option.some.inj (hm'.symm.trans hm)
          intro t0 ht0
          rcases List.mem_cons.mp ht0 with rfl | ht0
          · rw [hcr]
            exact hcS
          · exact ih hinv1 hrest t0 ht0
      next hm => exact Option.noConfusion h
    next hko => exact Option.noConfusion h

/-- Along a successful mint sequence from a store whose serial counters are
each at least `MIN_NFT_TOKEN_ID` below the global counter, the serial ids
minted for any fixed non-storage creator are the consecutive naturals
starting at that creator's pre-state serial counter. -/
theorem mintAll_serials {txs : List MintNFT} {s : ZkSyncState} {ts : List NFT}
    {s' : ZkSyncState} (hinv : storage_locked s)
    (hser : ∀ d, d ≠ NFT_STORAGE_ACCOUNT_ID →
      serial_counter s d + MIN_NFT_TOKEN_ID ≤ token_counter s)
    (h : mintAll s txs = some (ts, s')) :
    ∀ d, d ≠ NFT_STORAGE_ACCOUNT_ID →
      (ts.filter (fun t => t.creator_id == d)).map NFT.serial_id =
        List.range' (serial_counter s d)
          ((ts.filter (fun t => t.creator_id == d)).length) := by
  induction txs generalizing s ts with
  | nil =>
    unfold mintAll at h
    obtain rfl : ([] : List NFT) = ts := congrArg Prod.fst (Option.some.inj h)
    intro d _
    rfl
  | cons tx rest ih =>
    unfold mintAll at h
    split at h
    next f u s1 happ =>
      split at h
      next t hm =>
        rcases hrest : mintAll s1 rest with _ | p
        · rw [hrest] at h
          exact Option.noConfusion h
        · rw [hrest] at h
          obtain ⟨ts1, s2⟩ := p
          have hpair := Option.some.inj h
          obtain rfl : t :: ts1 = ts := congrArg Prod.fst hpair
          obtain rfl : s2 = s' := congrArg Prod.snd hpair
          obtain ⟨hcS, hsmall, ⟨t', hm', hid, hcr, hserid⟩, hcnt, hsers, hinv1⟩ :=
            apply_tx_ok_step hinv happ
          obtain rfl : t' = t := Option.some.inj (hm'.symm.trans hm)
          have hMIN : 0 < MIN_NFT_TOKEN_ID := by decide
          have hser1 : ∀ d, d ≠ NFT_STORAGE_ACCOUNT_ID →
              serial_counter s1 d + MIN_NFT_TOKEN_ID ≤ token_counter s1 := by
            intro e he
            rw [hsers e he, hcnt]
            have := hser e he
            split_ifs <;> omega
          intro d hd
          have ihser := ih hinv1 hser1 hrest d hd
          by_cases hdc : tx.creator_id = d
          · subst hdc
            rw [List.filter_cons_of_pos (by simp [hcr])]
            simp only [List.map_cons, List.length_cons, List.range'_succ]
            have hbound : serial_counter s tx.creator_id < 2 ^ 32 := by
              have := hser tx.creator_id hcS
              omega
            rw [hserid, if_pos hbound, ihser, hsers tx.creator_id hd, if_pos rfl]
          · rw [List.filter_cons_of_neg (by simp [hcr, hdc])]
            rw [ihser, hsers d hd, if_neg (fun hx => hdc hx.symm)]
      next hm => exact Option.noConfusion h
    next hko => exact Option.noConfusion h

theorem s7_nfts (s : ZkSyncState) (op : MintNFTOp) (creator0 : Account) :
    (s7_of s op creator0).nfts =
      Function.update s.nfts (ntid_of s op creator0)
        (some (minted_nft creator0 op (ntid_of s op creator0))) := by
  unfold s7_of s6_of s5_of s4_of s3_of boot_of ZkSyncState.get_or_create_nft_account_token_id
    ZkSyncState.get_account
  rcases hb : (s2_of s op creator0).accounts NFT_STORAGE_ACCOUNT_ID with _ | a <;>
    simp [hb, s2_of, s1_of]

/-! ## Replay lemmas (Mutation Log completeness) -/

theorem replayUpdate_balance {st : ZkSyncState} {id : Nat} {a : Account}
    (h : st.accounts id = some a) (t ov nv oldn nn : Nat) :
    replayUpdate st (id, .UpdateBalance t ov nv oldn nn) =
      st.insert_account id
        { a with nonce := nn, balances := Function.update a.balances t nv } := by
  show (match st.accounts id with
    | some b =>
      st.insert_account id { b with nonce := nn, balances := Function.update b.balances t nv }
    | none => st) = _
  rw [h]

theorem replayUpdate_mint (st : ZkSyncState) (id : Nat) (tok : NFT) (n : Nat) :
    replayUpdate st (id, .MintNFT tok n) =
      { st with nfts := Function.update st.nfts tok.id (some tok) } := rfl

theorem replayUpdate_create (st : ZkSyncState) (id addr n : Nat) :
    replayUpdate st (id, .Create addr n) =
      st.insert_account id
        { address := addr, nonce := n, pub_key_hash := 0, balances := fun _ => 0 } := rfl

theorem replay_append (s : ZkSyncState) (l1 l2 : List (Nat × AccountUpdate)) :
    replay s (l1 ++ l2) = replay (replay s l1) l2 := by
  simp [replay, List.foldl_append]

theorem s2_owner_apply (s : ZkSyncState) (op : MintNFTOp) (creator0 : Account) (y : Nat) :
    (s2_of s op creator0).owner_of_address y =
      if y = creator0.address then some op.creator_account_id
      else s.owner_of_address y := by
  simp only [s2_of, s1_of, insert_account_owner, serial_bumped_address, fee_paid_address,
    Function.update_apply]
  split_ifs <;> rfl

/-- Replaying the two creator entries reproduces the step-2 store. -/
theorem replay_head {s : ZkSyncState} {op : MintNFTOp} {creator0 : Account}
    (hc : s.accounts op.creator_account_id = some creator0) :
    replay s [u1_of op creator0, u2_of op creator0] = s2_of s op creator0 := by
  have e1 : replayUpdate s (u1_of op creator0) = s1_of s op creator0 := by
    unfold u1_of
    rw [replayUpdate_balance hc]
    unfold s1_of
    congr 1
    simp [fee_paid, Account.sub_balance, Account.get_balance, Function.update_same]
  have hst : (s1_of s op creator0).accounts op.creator_account_id =
      some (fee_paid creator0 op) := by
    unfold s1_of
    simp
  have e2 : replayUpdate (s1_of s op creator0) (u2_of op creator0) = s2_of s op creator0 := by
    unfold u2_of
    rw [replayUpdate_balance hst]
    unfold s2_of
    congr 1
  show replayUpdate (replayUpdate s (u1_of op creator0)) (u2_of op creator0) = _
  rw [e1, e2]

@[simp] theorem minted_nft_id (creator0 : Account) (op : MintNFTOp) (i : Nat) :
    (minted_nft creator0 op i).id = i := rfl

@[simp] theorem nft1_of_address (s : ZkSyncState) (op : MintNFTOp) (creator0 : Account) :
    (nft1_of s op creator0).address = (nft0_of s op creator0).address := rfl

@[simp] theorem nft2_of_address (s : ZkSyncState) (op : MintNFTOp) (creator0 : Account) :
    (nft2_of s op creator0).address = (nft0_of s op creator0).address := rfl

/-- The storage-account snapshot a replay consumer reconstructs from the
counter and token-data entries equals the snapshot the handler persisted. -/
theorem replayed_storage_eq {s : ZkSyncState} {op : MintNFTOp} {creator0 : Account}
    (hslot : (nft1_of s op creator0).get_balance (ntid_of s op creator0) = 0) :
    ({ nft0_of s op creator0 with
        nonce := (nft2_of s op creator0).nonce,
        balances := Function.update
          (Function.update (nft0_of s op creator0).balances NFT_TOKEN_ID
            ((nft1_of s op creator0).get_balance NFT_TOKEN_ID))
          (ntid_of s op creator0) (token_data_of creator0 op) } : Account) =
      nft2_of s op creator0 := by
  have h1 : (nft1_of s op creator0).balances =
      Function.update (nft0_of s op creator0).balances NFT_TOKEN_ID
        ((nft1_of s op creator0).get_balance NFT_TOKEN_ID) := by
    simp [nft1_of, Account.add_balance, Account.get_balance, Function.update_same]
  have h2 : (nft2_of s op creator0).balances =
      Function.update (nft1_of s op creator0).balances (ntid_of s op creator0)
        (token_data_of creator0 op) := by
    simp only [nft2_of, Account.add_balance, Account.get_balance]
    rw [show (nft1_of s op creator0).balances (ntid_of s op creator0) = 0 from hslot,
      Nat.zero_add]
  refine Account.ext ?_ ?_ ?_ ?_
  · show (nft0_of s op creator0).address = _
    simp
  · rfl
  · show (nft0_of s op creator0).pub_key_hash = _
    simp [nft2_of, nft1_of]
  · show Function.update (Function.update (nft0_of s op creator0).balances NFT_TOKEN_ID
        ((nft1_of s op creator0).get_balance NFT_TOKEN_ID)) (ntid_of s op creator0)
        (token_data_of creator0 op) = _
    rw [← h1, ← h2]

/-- Replaying the counter, mint-marker and token-data entries from any store
that holds the step-3 storage snapshot — and in which the creator snapshot
and its index entry are already those of step 2 — reproduces the stores of
steps 4 through 6 exactly, including the handler's re-persist of the creator
in step 5. -/
theorem replay_mid_core {s : ZkSyncState} {op : MintNFTOp} {creator0 : Account}
    {st : ZkSyncState}
    (hslot : (nft1_of s op creator0).get_balance (ntid_of s op creator0) = 0)
    (hstS : st.accounts NFT_STORAGE_ACCOUNT_ID = some (nft0_of s op creator0))
    (hstc : st.accounts op.creator_account_id = some (serial_bumped creator0 op))
    (hstown : creator0.address ≠ (nft0_of s op creator0).address →
      st.owner_of_address creator0.address = some op.creator_account_id) :
    replay st [u3_of s op creator0, u4_of s op creator0, u5_of s op creator0] =
      ((({ st.insert_account NFT_STORAGE_ACCOUNT_ID (nft1_of s op creator0) with
          nfts := Function.update
            (st.insert_account NFT_STORAGE_ACCOUNT_ID (nft1_of s op creator0)).nfts
            (ntid_of s op creator0)
            (some (minted_nft creator0 op (ntid_of s op creator0))) }).insert_account
          op.creator_account_id (serial_bumped creator0 op)).insert_account
        NFT_STORAGE_ACCOUNT_ID (nft2_of s op creator0)) := by
  have e3 : replayUpdate st (u3_of s op creator0) =
      st.insert_account NFT_STORAGE_ACCOUNT_ID
        { nft0_of s op creator0 with
          nonce := 0
          balances := Function.update (nft0_of s op creator0).balances NFT_TOKEN_ID
            ((nft1_of s op creator0).get_balance NFT_TOKEN_ID) } := by
    unfold u3_of
    exact replayUpdate_balance hstS _ _ _ _ _
  show replayUpdate (replayUpdate (replayUpdate st (u3_of s op creator0))
      (u4_of s op creator0)) (u5_of s op creator0) = _
  rw [e3]
  have e4 : replayUpdate
      (st.insert_account NFT_STORAGE_ACCOUNT_ID
        { nft0_of s op creator0 with
          nonce := 0
          balances := Function.update (nft0_of s op creator0).balances NFT_TOKEN_ID
            ((nft1_of s op creator0).get_balance NFT_TOKEN_ID) })
      (u4_of s op creator0) =
      { st.insert_account NFT_STORAGE_ACCOUNT_ID
          { nft0_of s op creator0 with
            nonce := 0
            balances := Function.update (nft0_of s op creator0).balances NFT_TOKEN_ID
              ((nft1_of s op creator0).get_balance NFT_TOKEN_ID) } with
        nfts := Function.update
          (st.insert_account NFT_STORAGE_ACCOUNT_ID
            { nft0_of s op creator0 with
              nonce := 0
              balances := Function.update (nft0_of s op creator0).balances NFT_TOKEN_ID
                ((nft1_of s op creator0).get_balance NFT_TOKEN_ID) }).nfts
          (ntid_of s op creator0)
          (some (minted_nft creator0 op (ntid_of s op creator0))) } := rfl
  rw [e4]
  have hA3 : ({ st.insert_account NFT_STORAGE_ACCOUNT_ID
      { nft0_of s op creator0 with
        nonce := 0
        balances := Function.update (nft0_of s op creator0).balances NFT_TOKEN_ID
          ((nft1_of s op creator0).get_balance NFT_TOKEN_ID) } with
      nfts := Function.update
        (st.insert_account NFT_STORAGE_ACCOUNT_ID
          { nft0_of s op creator0 with
            nonce := 0
            balances := Function.update (nft0_of s op creator0).balances NFT_TOKEN_ID
              ((nft1_of s op creator0).get_balance NFT_TOKEN_ID) }).nfts
        (ntid_of s op creator0)
        (some (minted_nft creator0 op (ntid_of s op creator0))) } : ZkSyncState).accounts
      NFT_STORAGE_ACCOUNT_ID =
      some { nft0_of s op creator0 with
        nonce := 0
        balances := Function.update (nft0_of s op creator0).balances NFT_TOKEN_ID
          ((nft1_of s op creator0).get_balance NFT_TOKEN_ID) } := by
    simp
  rw [show u5_of s op creator0 = (NFT_STORAGE_ACCOUNT_ID,
    AccountUpdate.UpdateBalance (ntid_of s op creator0) 0 (token_data_of creator0 op)
      (nft2_of s op creator0).nonce (nft2_of s op creator0).nonce) from rfl]
  rw [replayUpdate_balance hA3]
  refine ZkSyncState.ext ?_ ?_ ?_
  · funext x
    simp only [insert_account_accounts, Function.update_apply]
    split_ifs with h1 h2
    · exact congrArg some (replayed_storage_eq hslot)
    · rw [h2]
      exact hstc
    · rfl
  · funext y
    simp only [insert_account_owner, insert_account_accounts, nft1_of_address,
      nft2_of_address, serial_bumped_address, Function.update_apply]
    split_ifs with h1 h2
    · rfl
    · rw [h2]
      exact hstown (fun hx => h1 (h2.trans hx))
    · rfl
  · simp only [insert_account_nfts]

theorem insert_account_insert_same (st : ZkSyncState) (id : Nat) (a b : Account)
    (h : a.address = b.address) :
    (st.insert_account id a).insert_account id b = st.insert_account id b := by
  refine ZkSyncState.ext ?_ ?_ ?_
  · simp [Function.update_idem]
  · simp [h, Function.update_idem]
  · rfl

/-- Replaying the step-3-to-6 entries (bootstrap included when present)
reproduces the step-6 store. -/
theorem replay_mid {s : ZkSyncState} {op : MintNFTOp} {creator0 : Account}
    (hslot : (nft1_of s op creator0).get_balance (ntid_of s op creator0) = 0) :
    replay (s2_of s op creator0)
      (boots_of s op creator0 ++
        [u3_of s op creator0, u4_of s op creator0, u5_of s op creator0]) =
      s7_of s op creator0 := by
  have hs7 : s7_of s op creator0 =
      ((({ (s3_of s op creator0).insert_account NFT_STORAGE_ACCOUNT_ID
            (nft1_of s op creator0) with
          nfts := Function.update
            ((s3_of s op creator0).insert_account NFT_STORAGE_ACCOUNT_ID
              (nft1_of s op creator0)).nfts
            (ntid_of s op creator0)
            (some (minted_nft creator0 op (ntid_of s op creator0))) }).insert_account
          op.creator_account_id (serial_bumped creator0 op)).insert_account
        NFT_STORAGE_ACCOUNT_ID (nft2_of s op creator0)) := rfl
  rcases hb : (s2_of s op creator0).accounts NFT_STORAGE_ACCOUNT_ID with _ | a
  · obtain ⟨hnft0, hboots⟩ := nft0_of_absent hb
    have hs3 : s3_of s op creator0 =
        (s2_of s op creator0).insert_account NFT_STORAGE_ACCOUNT_ID boot_account := by
      unfold s3_of boot_of
      rw [get_or_create_absent hb]
    have hcS : op.creator_account_id ≠ NFT_STORAGE_ACCOUNT_ID := by
      intro he
      have h2 := s2_accounts_apply s op creator0 op.creator_account_id
      rw [if_pos rfl] at h2
      rw [he, hb] at h2
      exact Option.noConfusion h2
    have hbootrep : replay (s2_of s op creator0) boot_log =
        (s2_of s op creator0).insert_account NFT_STORAGE_ACCOUNT_ID boot_account := by
      show replayUpdate (replayUpdate (s2_of s op creator0)
        (NFT_STORAGE_ACCOUNT_ID, .Create NFT_STORAGE_ACCOUNT_ADDRESS 0))
        (NFT_STORAGE_ACCOUNT_ID, .UpdateBalance NFT_TOKEN_ID 0 MIN_NFT_TOKEN_ID 0 0) = _
      rw [replayUpdate_create]
      have hf : ((s2_of s op creator0).insert_account NFT_STORAGE_ACCOUNT_ID
          { address := NFT_STORAGE_ACCOUNT_ADDRESS, nonce := 0, pub_key_hash := 0,
            balances := fun _ => 0 }).accounts NFT_STORAGE_ACCOUNT_ID =
          some { address := NFT_STORAGE_ACCOUNT_ADDRESS, nonce := 0, pub_key_hash := 0,
                 balances := fun _ => 0 } := by
        simp
      rw [replayUpdate_balance hf]
      rw [insert_account_insert_same] <;> rfl
    rw [hboots, replay_append, hbootrep, hs7, hs3]
    refine replay_mid_core hslot ?_ ?_ ?_
    · rw [hnft0]
      simp
    · rw [insert_account_accounts, Function.update_apply, if_neg hcS, s2_accounts_apply,
        if_pos rfl]
    · intro hne
      rw [hnft0] at hne
      rw [insert_account_owner, Function.update_apply,
        if_neg (fun hx => hne (hx.trans rfl)), s2_owner_apply, if_pos rfl]
  · obtain ⟨hnft0, hboots⟩ := nft0_of_present hb
    have hs3 : s3_of s op creator0 = s2_of s op creator0 := by
      unfold s3_of boot_of
      rw [get_or_create_present hb]
    rw [hboots, List.nil_append, hs7, hs3]
    refine replay_mid_core hslot ?_ ?_ ?_
    · rw [hnft0]
      exact hb
    · rw [s2_accounts_apply, if_pos rfl]
    · intro _
      rw [s2_owner_apply, if_pos rfl]

/-- Replaying the recipient-credit entry reproduces the final store. -/
theorem replay_last {s : ZkSyncState} {op : MintNFTOp} {creator0 recipient0 : Account}
    (hr : (s7_of s op creator0).accounts op.recipient_account_id = some recipient0)
    (hrslot : recipient0.get_balance (ntid_of s op creator0) = 0) :
    replayUpdate (s7_of s op creator0) (u6_of s op creator0 recipient0) =
      s8_of s op creator0 recipient0 := by
  unfold u6_of
  rw [replayUpdate_balance hr]
  unfold s8_of
  congr 1
  refine Account.ext rfl rfl rfl ?_
  show Function.update recipient0.balances (ntid_of s op creator0) 1 = _
  rw [show (recipient0.add_balance (ntid_of s op creator0) 1).balances =
    Function.update recipient0.balances (ntid_of s op creator0)
      (recipient0.balances (ntid_of s op creator0) + 1) from rfl]
  rw [show recipient0.balances (ntid_of s op creator0) = 0 from hrslot]

/-! ## Claim theorems -/

/-- Claim C6: inside `apply_op`, a nonce mismatch yields `NonceMismatch` and,
with a matching nonce, an insufficient fee-token balance yields
`InsufficientBalance`; in both cases the store returned with the error is
the untouched input store and no Mutation Log entry is produced (the error
outcome carries none). -/
theorem C6_nonce_and_balance_guards {s : ZkSyncState} {op : MintNFTOp} {a : Account}
    (ha : s.accounts op.creator_account_id = some a)
    (h : ¬ a.nonce = op.tx.nonce ∨
      (a.nonce = op.tx.nonce ∧ a.get_balance op.tx.fee_token < op.tx.fee)) :
    s.apply_op op =
      .err (if a.nonce = op.tx.nonce then .InsufficientBalance else .NonceMismatch) s := by
  unfold ZkSyncState.apply_op ZkSyncState.get_account
  simp only [ha]
  rcases h with hn | ⟨hn, hb⟩
  · rw [if_neg hn, if_neg hn]
  · rw [if_pos hn, if_pos hn, if_neg (Nat.not_le.mpr hb)]

/-- Witness for C6 at the §8 failure scenario (request nonce 2 against
creator nonce 3). -/
theorem C6_nonce_and_balance_guards_witness :
    scenarioState.apply_op staleNonceOp =
      .err (if creatorC.nonce = staleNonceOp.tx.nonce then .InsufficientBalance
        else .NonceMismatch) scenarioState :=
  C6_nonce_and_balance_guards rfl (Or.inl (by decide))

/-- Claim C7: a successful application increments the creator's nonce by
exactly one, and immediately re-applying the same operation against the
post-state always fails with `NonceMismatch` (leaving that state unchanged). -/
theorem C7_nonce_increment_and_replay_mismatch {s : ZkSyncState} {op : MintNFTOp}
    {f : Option CollectedFee} {u : List (Nat × AccountUpdate)} {s' : ZkSyncState}
    (h : s.apply_op op = .ok f u s') :
    (∃ a, s.accounts op.creator_account_id = some a ∧
      acct_nonce s' op.creator_account_id = some (a.nonce + 1)) ∧
    s'.apply_op op = .err .NonceMismatch s' := by
  obtain ⟨creator0, recipient0, hc, hnonce, _hfee, _hsmall, _hslot, hr, _hrslot, _hf, _hu, hs⟩ :=
    apply_op_ok_inv h
  obtain ⟨a, haacc, han⟩ := post_creator_nonce hr
  subst hs
  constructor
  · exact ⟨creator0, hc, by simp [acct_nonce, haacc, han]⟩
  · unfold ZkSyncState.apply_op ZkSyncState.get_account
    simp only [haacc]
    rw [if_neg]
    rw [han, hnonce]
    exact Nat.succ_ne_self op.tx.nonce

/-- Witness for C7 at the §8 scenario. -/
theorem C7_nonce_increment_and_replay_mismatch_witness :
    (∃ a, scenarioState.accounts scenarioOp.creator_account_id = some a ∧
      acct_nonce scenarioPost scenarioOp.creator_account_id = some (a.nonce + 1)) ∧
    scenarioPost.apply_op scenarioOp = .err .NonceMismatch scenarioPost :=
  C7_nonce_increment_and_replay_mismatch
    (f := ok_fee scenarioOut) (u := ok_updates scenarioOut) rfl

/-- Claim C8: the NFT-storage bootstrap is idempotent: with the account
already stored it is returned unchanged with an empty update list and the
store untouched; otherwise it is created exactly once at its fixed ID and
address, nonce 0, with its counter balance initialized to
`MIN_NFT_TOKEN_ID`, and the bootstrap log entries (creation, then balance
0 → `MIN_NFT_TOKEN_ID` with nonce 0 → 0) precede the remaining step-3
entries in the Mutation Log of any successful application. -/
theorem C8_bootstrap_idempotent (s : ZkSyncState) :
    (∀ a, s.accounts NFT_STORAGE_ACCOUNT_ID = some a →
      s.get_or_create_nft_account_token_id = (a, [], s)) ∧
    (s.accounts NFT_STORAGE_ACCOUNT_ID = none →
      s.get_or_create_nft_account_token_id =
        (boot_account, boot_log, s.insert_account NFT_STORAGE_ACCOUNT_ID boot_account) ∧
      boot_account.address = NFT_STORAGE_ACCOUNT_ADDRESS ∧
      boot_account.nonce = 0 ∧
      boot_account.get_balance NFT_TOKEN_ID = MIN_NFT_TOKEN_ID ∧
      (s.insert_account NFT_STORAGE_ACCOUNT_ID boot_account).accounts
        NFT_STORAGE_ACCOUNT_ID = some boot_account) ∧
    (∀ op creator0 recipient0,
      updates_of s op creator0 recipient0 =
        [u1_of op creator0, u2_of op creator0] ++ boots_of s op creator0 ++
          [u3_of s op creator0, u4_of s op creator0, u5_of s op creator0,
            u6_of s op creator0 recipient0]) := by
  refine ⟨fun a ha => get_or_create_present ha, fun hn => ?_, fun _ _ _ => rfl⟩
  refine ⟨get_or_create_absent hn, rfl, rfl, boot_account_counter, ?_⟩
  simp

/-- Witness for C8: the absent branch at the §8 pre-state and the present
branch at its post-state. -/
theorem C8_bootstrap_idempotent_witness :
    scenarioState.get_or_create_nft_account_token_id =
      (boot_account, boot_log,
        scenarioState.insert_account NFT_STORAGE_ACCOUNT_ID boot_account) ∧
    scenarioPost.get_or_create_nft_account_token_id = (scenarioStorageAcct, [], scenarioPost) :=
  ⟨((C8_bootstrap_idempotent scenarioState).2.1 rfl).1,
    (C8_bootstrap_idempotent scenarioPost).1 scenarioStorageAcct rfl⟩

/-- Claim C2: the §8 scenario — creator 7 with fee-token-0 balance 100, nonce
3, unlocked; recipient 9 present; mint request fee_token 0, fee 10, nonce 3 —
succeeds and yields exactly: creator balance(0) 90, creator nonce 4, creator
serial-counter balance 0 → 1, storage counter `MIN_NFT_TOKEN_ID` →
`MIN_NFT_TOKEN_ID + 1`, a new registry record with
`token_id = MIN_NFT_TOKEN_ID` and `serial_id = 0`, recipient
balance(token_id) 0 → 1, and collected fee (0, 10). -/
theorem C2_scenario_mint :
    is_ok scenarioOut = true ∧
    acct_balance scenarioPost 7 0 = some 90 ∧
    acct_nonce scenarioPost 7 = some 4 ∧
    acct_balance scenarioState 7 NFT_TOKEN_ID = some 0 ∧
    acct_balance scenarioPost 7 NFT_TOKEN_ID = some 1 ∧
    token_counter scenarioPost = MIN_NFT_TOKEN_ID + 1 ∧
    (scenarioPost.nfts MIN_NFT_TOKEN_ID).map NFT.id = some MIN_NFT_TOKEN_ID ∧
    (scenarioPost.nfts MIN_NFT_TOKEN_ID).map NFT.serial_id = some 0 ∧
    acct_balance scenarioState 9 MIN_NFT_TOKEN_ID = some 0 ∧
    acct_balance scenarioPost 9 MIN_NFT_TOKEN_ID = some 1 ∧
    ok_fee scenarioOut = some { token := 0, amount := 10 } := by
  decide

/-- Claim C5: validation performs the six §4.2 checks in the listed order,
returning the corresponding error on the first failing check; `create_op`
coincides with the check-list reading of the spec on every store and every
request (and, taking the store read-only, it leaves it unchanged by
construction). -/
theorem C5_create_op_checks_in_order (s : ZkSyncState) (tx : MintNFT) :
    s.create_op tx = create_op_spec s tx := by
  unfold ZkSyncState.create_op create_op_spec check_list resolve_recipient
  by_cases h1 : tx.fee_token ≤ max_processable_token
  · by_cases h2 : tx.recipient = 0
    · simp [h1, h2, List.find?]
    · rcases h3 : s.get_account tx.creator_id with _ | creator
      · simp [h1, h2, h3, List.find?]
      · by_cases h4 : creator.pub_key_hash = 0
        · simp [h1, h2, h3, h4, List.find?]
        · rcases h5 : tx.verify_signature with _ | recovered
          · rcases h6 : s.get_account_by_address tx.recipient with _ | ra <;>
              simp [h1, h2, h3, h4, h5, h6, List.find?]
          · by_cases h7 : recovered = creator.pub_key_hash
            · rcases h6 : s.get_account_by_address tx.recipient with _ | ra <;>
                simp [h1, h2, h3, h4, h5, h6, h7, List.find?]
            · simp [h1, h2, h3, h4, h5, h7, List.find?]
  · simp [h1, List.find?]

/-- Claim C3: N sequential successful mints against a fresh store (no
NFT-storage account yet) assign token ids
`MIN_NFT_TOKEN_ID, …, MIN_NFT_TOKEN_ID + N - 1` in application order, with
no id assigned twice. -/
theorem C3_token_ids_sequential {txs : List MintNFT} {s : ZkSyncState} {ts : List NFT}
    {s' : ZkSyncState} (hfresh : s.accounts NFT_STORAGE_ACCOUNT_ID = none)
    (h : mintAll s txs = some (ts, s')) :
    ts.map NFT.id = List.range' MIN_NFT_TOKEN_ID txs.length ∧ (ts.map NFT.id).Nodup := by
  have hinv : storage_locked s := by
    intro a ha
    rw [hfresh] at ha
    exact Option.noConfusion ha
  have hcnt : token_counter s = MIN_NFT_TOKEN_ID := by
    unfold token_counter
    rw [hfresh]
  obtain ⟨hmap, -, -⟩ := mintAll_token_ids hinv h
  rw [hcnt] at hmap
  exact ⟨hmap, hmap ▸ List.nodup_range' _ _⟩

/-- Witness for C3: the one-element sequence from the §8 fresh store. -/
theorem C3_token_ids_sequential_witness :
    scenarioState.accounts NFT_STORAGE_ACCOUNT_ID = none ∧
    scenarioMintTs.map NFT.id = List.range' MIN_NFT_TOKEN_ID scenarioMintList.length ∧
    (scenarioMintTs.map NFT.id).Nodup :=
  ⟨rfl, @C3_token_ids_sequential scenarioMintList scenarioState scenarioMintTs
    scenarioMintPost rfl rfl⟩

/-- Claim C4: starting from a fresh store in which every account's
serial-counter balance is zero, the k-th successful mint by any given
creator (0-indexed) is assigned `serial_id = k`, regardless of how many
mints other creators perform in between: for every creator, the serial ids
of that creator's mints, in order, are `0, 1, 2, …`. -/
theorem C4_serial_ids_per_creator {txs : List MintNFT} {s : ZkSyncState} {ts : List NFT}
    {s' : ZkSyncState} (hfresh : s.accounts NFT_STORAGE_ACCOUNT_ID = none)
    (hzero : ∀ id a, s.accounts id = some a → a.get_balance NFT_TOKEN_ID = 0)
    (h : mintAll s txs = some (ts, s')) (d : Nat) :
    (ts.filter (fun t => t.creator_id == d)).map NFT.serial_id =
      List.range ((ts.filter (fun t => t.creator_id == d)).length) := by
  have hinv : storage_locked s := by
    intro a ha
    rw [hfresh] at ha
    exact Option.noConfusion ha
  have hzero' : ∀ e, serial_counter s e = 0 := by
    intro e
    rcases hacc : s.accounts e with _ | a
    · exact serial_counter_none hacc
    · rw [serial_counter_eq hacc]
      exact hzero e a hacc
  by_cases hd : d = NFT_STORAGE_ACCOUNT_ID
  · have hnil : ts.filter (fun t => t.creator_id == d) = [] := by
      rw [List.filter_eq_nil_iff]
      intro t ht
      simp only [beq_iff_eq]
      rw [hd]
      exact mintAll_creators hinv h t ht
    rw [hnil]
    rfl
  · have hser : ∀ e, e ≠ NFT_STORAGE_ACCOUNT_ID →
        serial_counter s e + MIN_NFT_TOKEN_ID ≤ token_counter s := by
      intro e _
      have hc : token_counter s = MIN_NFT_TOKEN_ID := by
        unfold token_counter
        rw [hfresh]
      rw [hzero', hc]
      omega
    have hmain := mintAll_serials hinv hser h d hd
    rw [hmain, hzero', List.range_eq_range']

/-- Witness for C4: the one-element sequence from the §8 fresh store,
creator 7. -/
theorem C4_serial_ids_per_creator_witness :
    (scenarioMintTs.filter (fun t => t.creator_id == 7)).map NFT.serial_id =
      List.range ((scenarioMintTs.filter (fun t => t.creator_id == 7)).length) :=
  @C4_serial_ids_per_creator scenarioMintList scenarioState scenarioMintTs
    scenarioMintPost rfl
    (by
      intro id a ha
      by_cases h9 : id = 9
      · subst h9
        simp only [scenarioState, Function.update_apply, if_pos rfl] at ha
        obtain rfl : recipientR = a := Option.some.inj ha
        decide
      · by_cases h7 : id = 7
        · subst h7
          simp only [scenarioState, Function.update_apply, if_neg (by decide : (7 : Nat) ≠ 9),
            if_pos rfl] at ha
          obtain rfl : creatorC = a := Option.some.inj ha
          decide
        · simp only [scenarioState, Function.update_apply, if_neg h9, if_neg h7] at ha
          exact Option.noConfusion ha)
    rfl 7

/-- Claim C10: when `apply_op` is called directly with a validated-shaped
operation (unlocked creator, hence distinct from the storage account, and a
fee token within the processable bound) whose checks pass up to step 7, and
the recipient is missing or already holds a nonzero balance at the new
token-id slot, it returns `RecipientAccountNotFound` resp.
`TokenIsAlreadyInAccount` carrying the store with the fee debit, nonce
increment, serial-counter increment, global-counter increment, registry
insert and token-data write already committed: no mutation is rolled back. -/
theorem C10_late_errors_commit_mutations {s : ZkSyncState} {op : MintNFTOp}
    {creator0 : Account}
    (hc : s.accounts op.creator_account_id = some creator0)
    (hcS : op.creator_account_id ≠ NFT_STORAGE_ACCOUNT_ID)
    (hmax : op.tx.fee_token ≤ max_processable_token)
    (hnonce : creator0.nonce = op.tx.nonce)
    (hfee : op.tx.fee ≤ creator0.get_balance op.tx.fee_token)
    (hsmall : ntid_of s op creator0 < 2 ^ 32)
    (hslot : (nft1_of s op creator0).get_balance (ntid_of s op creator0) = 0)
    (hbad : (s7_of s op creator0).accounts op.recipient_account_id = none ∨
      ∃ r0, (s7_of s op creator0).accounts op.recipient_account_id = some r0 ∧
        ¬ r0.get_balance (ntid_of s op creator0) = 0) :
    s.apply_op op =
      .err (if ((s7_of s op creator0).accounts op.recipient_account_id).isNone
          then .RecipientAccountNotFound else .TokenIsAlreadyInAccount)
        (s7_of s op creator0) ∧
    acct_nonce (s7_of s op creator0) op.creator_account_id = some (creator0.nonce + 1) ∧
    acct_balance (s7_of s op creator0) op.creator_account_id op.tx.fee_token =
      some (creator0.get_balance op.tx.fee_token - op.tx.fee) ∧
    acct_balance (s7_of s op creator0) op.creator_account_id NFT_TOKEN_ID =
      some (creator0.get_balance NFT_TOKEN_ID + 1) ∧
    token_counter (s7_of s op creator0) = token_counter s + 1 ∧
    (s7_of s op creator0).nfts (token_counter s) =
      some (minted_nft creator0 op (token_counter s)) ∧
    acct_balance (s7_of s op creator0) NFT_STORAGE_ACCOUNT_ID (ntid_of s op creator0) =
      some (token_data_of creator0 op) := by
  have hft : op.tx.fee_token ≠ NFT_TOKEN_ID :=
    Nat.ne_of_lt (lt_of_le_of_lt hmax max_token_lt_nft_token)
  have hntid : ntid_of s op creator0 = token_counter s := ntid_of_eq_counter hcS
  have hne : ntid_of s op creator0 ≠ NFT_TOKEN_ID := ntid_ne_nft_token hslot
  have hc7 : (s7_of s op creator0).accounts op.creator_account_id =
      some (serial_bumped creator0 op) := by
    rw [s7_accounts_apply, if_neg hcS, if_pos rfl]
  have hS7 : (s7_of s op creator0).accounts NFT_STORAGE_ACCOUNT_ID =
      some (nft2_of s op creator0) := by
    rw [s7_accounts_apply, if_pos rfl]
  refine ⟨?_, ?_, ?_, ?_, ?_, ?_, ?_⟩
  · unfold ZkSyncState.apply_op ZkSyncState.get_account
    simp only [hc]
    rw [if_pos hnonce, if_pos hfee, if_pos hsmall, if_pos hslot]
    rcases hbad with hnone | ⟨r0, hsome, hnz⟩
    · rw [hnone]
      rfl
    · simp only [hsome]
      rw [if_neg hnz]
      rfl
  · rw [acct_nonce, hc7, Option.map_some']
    simp
  · rw [acct_balance, hc7, Option.map_some']
    rw [serial_bumped, add_balance_get_other _ _ _ _ hft, fee_paid_get, if_pos rfl]
  · rw [acct_balance, hc7, Option.map_some']
    rw [serial_bumped_get_nft creator0 hft]
  · rw [token_counter_eq hS7, nft2_get_nft_token hne, hntid]
  · rw [s7_nfts, hntid, Function.update_same]
  · rw [acct_balance, hS7, Option.map_some']
    rw [nft2_of, add_balance_get_same, hslot, Nat.zero_add]

/-- Witness for C10 at the §8 store with a dangling recipient ID 12. -/
theorem C10_late_errors_commit_mutations_witness :
    (scenarioState.apply_op missingRecipientOp =
      .err (if ((s7_of scenarioState missingRecipientOp creatorC).accounts
            missingRecipientOp.recipient_account_id).isNone
          then .RecipientAccountNotFound else .TokenIsAlreadyInAccount)
        (s7_of scenarioState missingRecipientOp creatorC) ∧
    acct_nonce (s7_of scenarioState missingRecipientOp creatorC)
      missingRecipientOp.creator_account_id = some (creatorC.nonce + 1) ∧
    acct_balance (s7_of scenarioState missingRecipientOp creatorC)
      missingRecipientOp.creator_account_id missingRecipientOp.tx.fee_token =
      some (creatorC.get_balance missingRecipientOp.tx.fee_token - missingRecipientOp.tx.fee) ∧
    acct_balance (s7_of scenarioState missingRecipientOp creatorC)
      missingRecipientOp.creator_account_id NFT_TOKEN_ID =
      some (creatorC.get_balance NFT_TOKEN_ID + 1) ∧
    token_counter (s7_of scenarioState missingRecipientOp creatorC) =
      token_counter scenarioState + 1 ∧
    (s7_of scenarioState missingRecipientOp creatorC).nfts (token_counter scenarioState) =
      some (minted_nft creatorC missingRecipientOp (token_counter scenarioState)) ∧
    acct_balance (s7_of scenarioState missingRecipientOp creatorC) NFT_STORAGE_ACCOUNT_ID
      (ntid_of scenarioState missingRecipientOp creatorC) =
      some (token_data_of creatorC missingRecipientOp)) :=
  C10_late_errors_commit_mutations rfl (by decide) (by decide) (by decide) (by decide)
    (by decide) (by decide) (Or.inl rfl)

/-- Claim C9, counterexample: the token-id extraction is not the only
fixed-width narrowing in the operation.  With the creator's serial-counter
balance already at `2 ^ 32`, the mint neither aborts nor fails: it succeeds,
silently narrowing the unrepresentable counter to a default `serial_id` of
0 (the `to_u32().unwrap_or_default()` on line 109 of the source), so a
second narrowing cast exists and it does not fail loudly. -/
theorem C9_counterexample_silent_serial_narrowing :
    acct_balance bigSerialState 7 NFT_TOKEN_ID = some (2 ^ 32) ∧
    is_ok bigSerialOut = true ∧
    (minted_of (ok_updates bigSerialOut)).map NFT.serial_id = some 0 := by
  decide

/-- Claim C9, amended: balances and counters are arbitrary-precision
non-negative integers with no fixed-width wraparound.  The operation narrows
to 32 bits in exactly two places: the extraction of `token_id`, which fails
loudly — if the checks before it pass and the global counter is not
representable in 32 bits, `apply_op` aborts (`panic`) rather than wrapping
or defaulting — and the serial-counter read, which silently defaults to 0
when unrepresentable, as §4.3 step 2 states. -/
theorem C9_narrowing_casts (s : ZkSyncState) (op : MintNFTOp) (creator0 : Account) :
    (s.accounts op.creator_account_id = some creator0 →
      creator0.nonce = op.tx.nonce →
      op.tx.fee ≤ creator0.get_balance op.tx.fee_token →
      2 ^ 32 ≤ ntid_of s op creator0 →
      s.apply_op op = .panic) ∧
    (∀ f u s', s.apply_op op = .ok f u s' →
      s.accounts op.creator_account_id = some creator0 →
      2 ^ 32 ≤ (fee_paid creator0 op).get_balance NFT_TOKEN_ID →
      (minted_of u).map NFT.serial_id = some 0) := by
  constructor
  · intro hc hnonce hfee hbig
    unfold ZkSyncState.apply_op ZkSyncState.get_account
    simp only [hc]
    rw [if_pos hnonce, if_pos hfee, if_neg (Nat.not_lt.mpr hbig)]
  · intro f u s' h hc hbig
    obtain ⟨creator1, recipient0, hc1, _, _, _, _, _, _, _, hu, _⟩ := apply_op_ok_inv h
    obtain rfl : creator1 = creator0 := Option.some.inj (hc1.symm.trans hc)
    rw [hu, minted_of_updates, Option.map_some']
    show some (serial_id_of creator1 op) = some 0
    simp only [serial_id_of]
    rw [if_neg (Nat.not_lt.mpr hbig)]

/-- Witness for the amended C9: the §8 request panics against a store whose
global counter is `2 ^ 32`, and silently defaults the serial id against a
store whose creator serial counter is `2 ^ 32`. -/
theorem C9_narrowing_casts_witness :
    bigCounterState.apply_op scenarioOp = .panic ∧
    (minted_of (ok_updates bigSerialOut)).map NFT.serial_id = some 0 :=
  ⟨(C9_narrowing_casts bigCounterState scenarioOp creatorC).1 rfl (by decide) (by decide)
      (by decide),
    (C9_narrowing_casts bigSerialState scenarioOp bigSerialCreator).2 (ok_fee bigSerialOut)
      (ok_updates bigSerialOut) (out_state bigSerialState bigSerialOut) rfl rfl (by decide)⟩

/-- Claim C1: Mutation Log completeness — for every successful call to
`apply_op`, replaying the returned log entries in order against a copy of
the pre-state store reproduces exactly the post-state store (so every
balance and nonce change the handler made appears in the log, exactly once
and in mutation order: a missing, duplicated or misordered entry would make
the replayed store differ). -/
theorem C1_replay_reproduces_post_state {s : ZkSyncState} {op : MintNFTOp}
    {f : Option CollectedFee} {u : List (Nat × AccountUpdate)} {s' : ZkSyncState}
    (h : s.apply_op op = .ok f u s') :
    replay s u = s' := by
  obtain ⟨creator0, recipient0, hc, _, _, _, hslot, hr, hrslot, _, hu, hs⟩ :=
    apply_op_ok_inv h
  subst hu
  subst hs
  have hsplit : updates_of s op creator0 recipient0 =
      [u1_of op creator0, u2_of op creator0] ++
        ((boots_of s op creator0 ++
          [u3_of s op creator0, u4_of s op creator0, u5_of s op creator0]) ++
          [u6_of s op creator0 recipient0]) := by
    unfold updates_of
    simp [List.append_assoc]
  rw [hsplit, replay_append, replay_append, replay_head hc, replay_mid hslot]
  exact replay_last hr hrslot

/-- Witness for C1 at the §8 scenario. -/
theorem C1_replay_reproduces_post_state_witness :
    scenarioState.apply_op scenarioOp =
      .ok (ok_fee scenarioOut) (ok_updates scenarioOut) scenarioPost ∧
    replay scenarioState (ok_updates scenarioOut) = scenarioPost :=
  ⟨rfl, @C1_replay_reproduces_post_state scenarioState scenarioOp (ok_fee scenarioOut)
    (ok_updates scenarioOut) scenarioPost rfl⟩


end MintNftHandler
